import Mathlib

/-!
Verification of the reconciliation core of `reconcile/openshift_base.py`.

This file shallowly embeds the functions `_realize_resource_data`, `delete`,
`apply`, `validate_data` and `init_specs_to_fetch` from
`reconcile/openshift_base.py`, together with just enough of the collaborator
classes (`OpenshiftResource`, `ResourceInventory` — whose source module is not
part of this snapshot and is therefore modelled from the specification) to
state and settle the claims about them.

Modelling conventions:
* Python dicts that are iterated in insertion order are embedded as
  association lists `List (String × _)`; `dict.get` is `alookup`.
* Machine-level provider calls (`oc.apply`, `oc.delete`, ...) are parametrized
  by their outcomes; an exception is an `Option String`/error value.
* Inside `_realize_resource_data` no loop iteration reads state mutated by an
  earlier iteration (`enable_deletion` is computed before the loops and
  `ri.register_error()` is only written, never read, inside them), so the two
  passes are embedded compositionally as per-item step functions whose
  outputs are concatenated in iteration order.
-/

set_option maxRecDepth 4000

namespace OpenshiftBase

/-- Association-list lookup with Python `dict.get` semantics
(first binding wins; `none` when the key is absent). -/
def alookup {α : Type} (l : List (String × α)) (k : String) : Option α :=
  (l.find? (fun p => p.1 == k)).map (fun p => p.2)

/-- Replace-or-append insertion, mirroring Python `d[k] = v`. -/
def assoc_insert {α : Type} : List (String × α) → String → α → List (String × α)
  | [], k, v => [(k, v)]
  | (k', v') :: rest, k, v =>
      if k' == k then (k, v) :: rest else (k', v') :: assoc_insert rest k v

/-- Python truthiness of an optional list argument (`None` and `[]` are falsy). -/
def pyTruthyList {α : Type} : Option (List α) → Bool
  | some l => !l.isEmpty
  | none => false

/-- Modelled from the spec (`reconcile/utils/openshift_resource.py` is not in
this snapshot): the provenance annotations `OpenshiftResource.annotate`
embeds into a body — the content hash and the caller name. -/
structure QAnnotations where
  sha256sum : String
  caller : Option String
deriving DecidableEq, Repr

/-- Modelled from the spec (`reconcile/utils/openshift_resource.py` is not in
this snapshot): an `OpenshiftResource` as consumed by
`_realize_resource_data`.  `canonicalBody` stands for the canonicalized body
(stable ordering, provenance annotations and server-managed fields removed);
`annotations` is the parsed provenance annotation block when the body carries
one; `callerName` is the constructor-supplied caller; `errorDetails` the
opaque diagnostic string; `hasOwnerReference` whether the body carries an
`ownerReferences` entry. -/
structure Resource where
  name : String
  canonicalBody : String
  annotations : Option QAnnotations
  callerName : Option String
  hasOwnerReference : Bool
  errorDetails : String
deriving DecidableEq, Repr

/-- `OpenshiftResource.has_qontract_annotations`. -/
def Resource.has_qontract_annotations (r : Resource) : Bool :=
  r.annotations.isSome

/-- Modelled from the spec: the deterministic content hash over the
canonicalized body.  The hash function is modelled as the canonical body
itself (an injective deterministic hash), which realizes the spec invariant
that hash equality is a fast-path alternative to structural equality. -/
def Resource.calculate_sha256sum (r : Resource) : String :=
  r.canonicalBody

/-- Modelled from the spec: `OpenshiftResource.sha256sum` returns the hash
stored in the provenance annotation when the body is annotated, and a freshly
computed hash otherwise (the stored hash of a hand-edited body may be stale,
per the spec's stale-hash re-apply path). -/
def Resource.sha256sum (r : Resource) : String :=
  match r.annotations with
  | some a => a.sha256sum
  | none => r.calculate_sha256sum

/-- Modelled from the spec: `has_valid_sha256sum` recomputes the hash from
the live body and compares it with the hash stored in the annotation. -/
def Resource.has_valid_sha256sum (r : Resource) : Bool :=
  match r.annotations with
  | some a => a.sha256sum == r.calculate_sha256sum
  | none => false

/-- Modelled from the spec: the caller recorded in the provenance
annotations, falling back to the constructor-supplied caller name. -/
def Resource.caller (r : Resource) : Option String :=
  match r.annotations with
  | some a => a.caller
  | none => r.callerName

/-- Modelled from the spec: `annotate` embeds the provenance annotations
(fresh content hash and caller) into the body.  Canonicalization strips the
provenance annotations again, so `canonicalBody` is unchanged. -/
def Resource.annotate (r : Resource) : Resource :=
  { r with annotations := some ⟨r.calculate_sha256sum, r.caller⟩ }

/-- Modelled from the spec: structural equality of two resources —
canonicalized bodies (excluding provenance annotations and server-managed
fields) are equal.  Used for the `d_item == c_item` comparison. -/
def resourceEqual (d c : Resource) : Bool :=
  d.canonicalBody == c.canonicalBody

/-- Modelled from the spec (`ResourceInventory` is not in this snapshot):
the inventory's error flags — a global flag ("at least one cluster failed")
and the set of clusters with a registered error — plus the record of
initialized (cluster, namespace, kind) cells. -/
structure RI where
  errorRegistered : Bool
  clusterErrors : List String
  initialized : List (String × String × String)
deriving DecidableEq, Repr

/-- `ResourceInventory.has_error_registered(cluster=...)`. -/
def has_error_registered (ri : RI) (cluster : Option String) : Bool :=
  match cluster with
  | some c => ri.clusterErrors.contains c
  | none => ri.errorRegistered

/-- `ResourceInventory.register_error(cluster=...)`: always raises the
global flag; additionally records the cluster when one is given. -/
def register_error (ri : RI) (cluster : Option String) : RI :=
  { ri with
    errorRegistered := true
    clusterErrors :=
      match cluster with
      | some c => c :: ri.clusterErrors
      | none => ri.clusterErrors }

/-- `ResourceInventory.initialize_resource_type`. -/
def init_resource_type (ri : RI) (cluster ns resource_type : String) : RI :=
  { ri with initialized := ri.initialized ++ [(cluster, ns, resource_type)] }

/-- `ACTION_APPLIED` (`openshift_base.py` line 25). -/
def ACTION_APPLIED : String := "applied"

/-- `ACTION_DELETED` (`openshift_base.py` line 26). -/
def ACTION_DELETED : String := "deleted"

/-- The action record built by `_realize_resource_data`
(`{'action': ..., 'cluster': ..., 'namespace': ..., 'kind': ..., 'name': ...,
'privileged': ...}`). -/
structure Action where
  action : String
  cluster : String
  namespaceName : String
  kind : String
  name : String
  privileged : Bool
deriving DecidableEq, Repr

/-- One inventory cell, the `data` entry of an unpacked inventory item:
`data['desired']`, `data['current']` and `data['use_admin_token']` as
insertion-ordered dictionaries. -/
structure CellData where
  desired : List (String × Resource)
  current : List (String × Resource)
  use_admin_token : List (String × Bool)
deriving Repr

/-- The keyword arguments of `realize_data` that `_realize_resource_data`
receives unchanged. -/
structure REnv where
  dry_run : Bool
  take_over : Bool
  caller : Option String
  wait_for_namespace : Bool
  no_dry_run_skip_compare : Bool
  override_enable_deletion : Option Bool
  recycle_pods : Bool
deriving Repr

/-- Python truthiness of the `caller` argument (a string or `None`). -/
def callerTruthy (env : REnv) : Bool :=
  match env.caller with
  | some s => !s.isEmpty
  | none => false

/-- The outcomes of the provider calls a single realize pass can make.
`applyOutcome name` is the behaviour of the module-level `apply` helper for
the desired item stored under `name`: `none` when it returns normally and
`some e` when it raises `StatusCodeError(e)` (the helper's internal recovery
tree is embedded separately as `apply_calls`).  `ocDeleteOutcome name` is the
outcome of `oc.delete` when it is actually invoked, and `ocResolvesDelete
privileged` whether `oc_map.get(cluster, privileged)` returns a client inside
the `delete` helper. -/
structure Provider where
  applyOutcome : String → Option String
  ocResolvesDelete : Bool → Bool
  ocDeleteOutcome : String → Option String

/-- The error message built for a failed apply
(`openshift_base.py` lines 470-473): the provider error text is replaced by a
fixed redacted description when the kind is `Secret`. -/
def applyFailMsg (cluster ns resource_type : String) (d : Resource) (e : String) : String :=
  let err := if resource_type != "Secret" then e
             else "error applying Secret " ++ d.name ++ ": REDACTED"
  "[" ++ cluster ++ "/" ++ ns ++ "] " ++ err ++ " (error details: " ++ d.errorDetails ++ ")"

/-- The error message built for a failed delete
(`openshift_base.py` line 512): the provider error text verbatim. -/
def deleteFailMsg (cluster ns e : String) : String :=
  "[" ++ cluster ++ "/" ++ ns ++ "] " ++ e

/-- The cluster-error skip message (`openshift_base.py` lines 386-390). -/
def skipClusterMsg (cluster : String) : String :=
  "[" ++ cluster ++ "] skipping realize_data for cluster with errors"

/-- The `logging.error` text of a disabled delete
(`openshift_base.py` line 354). -/
def deleteDisabledMsg : String :=
  "\x27delete\x27 action is disabled due to previous errors."

/-- The observable output of one loop iteration of `_realize_resource_data`:
appended actions, `logging.error` messages, whether `ri.register_error()` was
called, and which helper/provider calls were made (keyed by inventory name). -/
structure StepOut where
  actions : List Action
  logs : List String
  errored : Bool
  applyCalls : List String
  helperDeleteCalls : List String
  ocDeleteCalls : List String
deriving DecidableEq, Repr

/-- A loop iteration with no observable effect (`continue`). -/
def emptyStep : StepOut := ⟨[], [], false, [], [], []⟩

/-- The compare chain of the desired-items loop
(`openshift_base.py` lines 402-445): `true` means the item is skipped
(`continue`), `false` that control falls through to the apply attempt. -/
def applySkip (env : REnv) (d c : Resource) : Bool :=
  if !env.dry_run && env.no_dry_run_skip_compare then
    false
  else if !c.has_qontract_annotations then
    false
  else if !(callerTruthy env && env.take_over) && resourceEqual d c then
    true
  else if c.sha256sum == d.sha256sum then
    c.has_valid_sha256sum
  else
    false

/-- Whether the desired-items loop skips (`continue`s) the item stored under
`name`: only when a current item exists and the compare chain decides to
skip. -/
def skipsApply (env : REnv) (current : List (String × Resource))
    (name : String) (d : Resource) : Bool :=
  match alookup current name with
  | some c => applySkip env d c
  | none => false

/-- One iteration of the desired-items loop of `_realize_resource_data`
(`openshift_base.py` lines 399-474). -/
def desiredStep (env : REnv) (prov : Provider) (cluster ns resource_type : String)
    (current : List (String × Resource)) (uat : List (String × Bool))
    (name : String) (d : Resource) : StepOut :=
  if skipsApply env current name d then emptyStep
  else
    let priv := (alookup uat name).getD false
    match prov.applyOutcome name with
    | none =>
        { emptyStep with
          actions := [⟨ACTION_APPLIED, cluster, ns, resource_type, d.name, priv⟩]
          applyCalls := [name] }
    | some e =>
        { emptyStep with
          logs := [applyFailMsg cluster ns resource_type d e]
          errored := true
          applyCalls := [name] }

/-- Whether the current-items loop reaches the delete attempt for an item
(`openshift_base.py` lines 477-495): the item has no desired counterpart, is
either annotated with a matching caller or unmanaged in a take-over run, and
carries no owner reference. -/
def deleteConsidered (env : REnv) (desired : List (String × Resource))
    (name : String) (c : Resource) : Bool :=
  if (alookup desired name).isSome then false
  else if c.has_qontract_annotations then
    if callerTruthy env && !(c.caller == env.caller) then false
    else !c.hasOwnerReference
  else if !env.take_over then false
  else !c.hasOwnerReference

/-- Result of the module-level `delete` helper
(`openshift_base.py` lines 348-362): the `StatusCodeError` it re-raises (if
any), whether `oc.delete` was actually invoked, and its `logging.error`
output. -/
structure DeleteHelperOut where
  raised : Option String
  ocDeleted : Bool
  logs : List String
deriving DecidableEq, Repr

/-- The module-level `delete` helper (`openshift_base.py` lines 348-362):
returns without touching the provider when deletion is disabled or the
client cannot be resolved, and only calls `oc.delete` outside dry-run. -/
def delete (dry_run : Bool) (ocResolves : Bool) (ocOutcome : Option String)
    (enable_deletion : Bool) : DeleteHelperOut :=
  if !enable_deletion then ⟨none, false, [deleteDisabledMsg]⟩
  else if !ocResolves then ⟨none, false, []⟩
  else if !dry_run then
    match ocOutcome with
    | none => ⟨none, true, []⟩
    | some e => ⟨some e, true, []⟩
  else ⟨none, false, []⟩

/-- One iteration of the current-items loop of `_realize_resource_data`
(`openshift_base.py` lines 477-513).  Note that the `deleted` action record
is appended whenever the `delete` helper returns without raising — also when
deletion was disabled and no provider delete happened. -/
def currentStep (env : REnv) (prov : Provider) (cluster ns resource_type : String)
    (desired : List (String × Resource)) (uat : List (String × Bool))
    (enable_deletion : Bool) (name : String) (c : Resource) : StepOut :=
  if deleteConsidered env desired name c then
    let priv := (alookup uat name).getD false
    let dh := delete env.dry_run (prov.ocResolvesDelete priv) (prov.ocDeleteOutcome name)
                enable_deletion
    match dh.raised with
    | none =>
        { actions := [⟨ACTION_DELETED, cluster, ns, resource_type, name, priv⟩]
          logs := dh.logs
          errored := false
          applyCalls := []
          helperDeleteCalls := [name]
          ocDeleteCalls := if dh.ocDeleted then [name] else [] }
    | some e =>
        { actions := []
          logs := dh.logs ++ [deleteFailMsg cluster ns e]
          errored := true
          applyCalls := []
          helperDeleteCalls := [name]
          ocDeleteCalls := if dh.ocDeleted then [name] else [] }
  else emptyStep

/-- The `enable_deletion` computation (`openshift_base.py` lines 393-396):
`False` when the inventory has any registered error, and an explicit
`override_enable_deletion is False` can only disable it further. -/
def enableDeletion (env : REnv) (ri : RI) : Bool :=
  let ed0 := if has_error_registered ri none then false else true
  if ed0 && env.override_enable_deletion == some false then false else ed0

/-- The observable output of `_realize_resource_data` on one inventory cell:
the returned action list, the updated inventory error flags, the
`logging.error` output, and the calls made (helper `apply` invocations,
helper `delete` invocations, and actual `oc.delete` provider calls). -/
structure RealizeOut where
  actions : List Action
  ri : RI
  logs : List String
  applyCalls : List String
  helperDeleteCalls : List String
  ocDeleteCalls : List String
deriving Repr

/-- `_realize_resource_data` (`openshift_base.py` lines 374-515) on one
unpacked inventory item `(cluster, namespace, resource_type, data)`.
The cell is skipped entirely when the cluster has a registered error;
otherwise `enable_deletion` is computed from the global error flag (an
explicit `override_enable_deletion is False` can only disable it further),
the desired-items pass runs, then the current-items pass. -/
def _realize_resource_data (env : REnv) (prov : Provider)
    (cluster ns resource_type : String) (data : CellData) (ri : RI) : RealizeOut :=
  if has_error_registered ri (some cluster) then
    ⟨[], ri, [skipClusterMsg cluster], [], [], []⟩
  else
    let enable_deletion := enableDeletion env ri
    let dOuts := data.desired.map (fun p =>
      desiredStep env prov cluster ns resource_type data.current data.use_admin_token p.1 p.2)
    let cOuts := data.current.map (fun p =>
      currentStep env prov cluster ns resource_type data.desired data.use_admin_token
        enable_deletion p.1 p.2)
    let outs := dOuts ++ cOuts
    ⟨(outs.map StepOut.actions).flatten,
     { ri with errorRegistered := ri.errorRegistered || outs.any StepOut.errored },
     (outs.map StepOut.logs).flatten,
     (outs.map StepOut.applyCalls).flatten,
     (outs.map StepOut.helperDeleteCalls).flatten,
     (outs.map StepOut.ocDeleteCalls).flatten⟩

/-- The names of the `applied` actions in a realize result. -/
def appliedNames (acts : List Action) : List String :=
  (acts.filter (fun a => a.action == ACTION_APPLIED)).map Action.name

/-- The names of the `deleted` actions in a realize result. -/
def deletedNames (acts : List Action) : List String :=
  (acts.filter (fun a => a.action == ACTION_DELETED)).map Action.name

/-- The live state after a realize run, fed back as the cell's current side:
every applied desired item is present as its annotated body, every deleted
name is absent, and all other current items are unchanged. -/
def feedbackCurrent (desired current : List (String × Resource))
    (acts : List Action) : List (String × Resource) :=
  current.filter (fun p =>
      !(deletedNames acts).contains p.1 && !(appliedNames acts).contains p.1)
  ++ desired.filterMap (fun p =>
      if (appliedNames acts).contains p.1 then some (p.1, p.2.annotate) else none)

/-- The typed provider errors `oc.apply` can raise, as imported at the top of
`openshift_base.py` from `reconcile.utils.oc`. -/
inductive OcErr where
  | invalidValueApply
  | metaDataAnnotationsTooLong
  | unsupportedMediaType
  | fieldIsImmutable
  | mayNotChangeOnceSet
  | primaryClusterIPCanNotBeUnset
  | statefulSetUpdateForbidden
  | statusCode (msg : String)
deriving DecidableEq, Repr

/-- Provider calls made by the module-level `apply` helper. -/
inductive OcCall where
  | ocApply (ns name : String)
  | removeLastAppliedConfiguration (ns kind name : String)
  | ocGet (ns kind name : String)
  | ocCreate (ns name : String)
  | ocReplace (ns name : String)
  | ocDelete (ns kind name : String) (cascade : Bool)
  | getOwnedPods (ns name : String)
  | resizePvcs (ns : String)
  | recyclePods (ns kind name : String)
deriving DecidableEq, Repr

/-- The module-level `apply` helper (`openshift_base.py` lines 257-333) at
the granularity of the provider calls it makes and the error it re-raises.
`firstApplyErr` is the outcome of the first `oc.apply` attempt (`none` =
success); the compensating calls of a recovery branch are modelled as
succeeding.  `ocResolves` is whether `oc_map.get` returns a client,
`projectExists` the result of `oc.project_exists`, `objExists` the result of
the `oc.get(..., allow_not_found=True)` probe, and `resizeRequired` whether
current and desired storage differ in the StatefulSet branch. -/
def apply_calls (dry_run : Bool) (ns resource_type name : String)
    (wait_for_namespace recycle_pods : Bool)
    (ocResolves projectExists objExists resizeRequired : Bool)
    (firstApplyErr : Option OcErr) : List OcCall × Option OcErr :=
  if !ocResolves then ([], none)
  else if dry_run then
    ((if recycle_pods then [.recyclePods ns resource_type name] else []), none)
  else if ns != "cluster" && !projectExists && !wait_for_namespace then
    ([], none)
  else
    let attempt : List OcCall × Option OcErr :=
      match firstApplyErr with
      | none => ([.ocApply ns name], none)
      | some .invalidValueApply =>
          ([.ocApply ns name, .removeLastAppliedConfiguration ns resource_type name,
            .ocApply ns name], none)
      | some .metaDataAnnotationsTooLong =>
          ([.ocApply ns name, .ocGet ns resource_type name]
            ++ (if objExists then [] else [.ocCreate ns name])
            ++ [.ocReplace ns name], none)
      | some .unsupportedMediaType =>
          ([.ocApply ns name, .ocGet ns resource_type name]
            ++ (if objExists then [] else [.ocCreate ns name])
            ++ [.ocReplace ns name], none)
      | some .fieldIsImmutable =>
          if !(["Route", "Service", "Secret"].contains resource_type) then
            ([.ocApply ns name], some .fieldIsImmutable)
          else
            ([.ocApply ns name, .ocDelete ns resource_type name true,
              .ocApply ns name], none)
      | some .mayNotChangeOnceSet =>
          if !(["Service"].contains resource_type) then
            ([.ocApply ns name], some .mayNotChangeOnceSet)
          else
            ([.ocApply ns name, .ocDelete ns resource_type name true,
              .ocApply ns name], none)
      | some .primaryClusterIPCanNotBeUnset =>
          if !(["Service"].contains resource_type) then
            ([.ocApply ns name], some .primaryClusterIPCanNotBeUnset)
          else
            ([.ocApply ns name, .ocDelete ns resource_type name true,
              .ocApply ns name], none)
      | some .statefulSetUpdateForbidden =>
          if resource_type != "StatefulSet" then
            ([.ocApply ns name], some .statefulSetUpdateForbidden)
          else
            ([.ocApply ns name, .ocGet ns resource_type name]
              ++ (if resizeRequired then [.getOwnedPods ns name] else [])
              ++ [.ocDelete ns resource_type name false, .ocApply ns name]
              ++ (if resizeRequired then [.resizePvcs ns] else []), none)
      | some (.statusCode m) => ([.ocApply ns name], some (.statusCode m))
    match attempt.2 with
    | some e => (attempt.1, some e)
    | none =>
        (attempt.1 ++ (if recycle_pods then [.recyclePods ns resource_type name] else []),
         none)

/-- A structured (JSON-like) value, modelling the Python dictionaries that
`validate_data` inspects.  Arrays and objects are built from explicit
cons/nil constructors (rather than nested `List` fields) so that every
function on them is plain structural recursion and closed computations
reduce definitionally. -/
inductive JVal where
  | null
  | bool (b : Bool)
  | num (n : Int)
  | str (s : String)
  | arrNil
  | arrCons (head tail : JVal)
  | objNil
  | objCons (key : String) (val tail : JVal)
deriving DecidableEq, Repr

/-- Build an array value from a list. -/
def jarr : List JVal → JVal
  | [] => .arrNil
  | x :: xs => .arrCons x (jarr xs)

/-- Build an object value from a key/value list (insertion order kept). -/
def jobj : List (String × JVal) → JVal
  | [] => .objNil
  | (k, v) :: rest => .objCons k v (jobj rest)

/-- Python `==` between two structured values, modelled structurally
(key order inside objects is significant in this model; the values actually
compared by `validate_data` are scalars). -/
def JVal.beq : JVal → JVal → Bool
  | .null, .null => true
  | .bool a, .bool b => a == b
  | .num a, .num b => a == b
  | .str a, .str b => a == b
  | .arrNil, .arrNil => true
  | .arrCons x xs, .arrCons y ys => JVal.beq x y && JVal.beq xs ys
  | .objNil, .objNil => true
  | .objCons k1 v1 r1, .objCons k2 v2 r2 =>
      k1 == k2 && JVal.beq v1 v2 && JVal.beq r1 r2
  | _, _ => false

/-- Python truthiness (`None`, `False`, `0`, `""`, `[]`, `{}` are falsy). -/
def JVal.truthy : JVal → Bool
  | .null => false
  | .bool b => b
  | .num n => n != 0
  | .str s => !s.isEmpty
  | .arrNil => false
  | .arrCons _ _ => true
  | .objNil => false
  | .objCons _ _ _ => true

/-- Python `dict.get(k)`: `None` when the key is absent (and on non-dicts,
which `validate_data` never feeds to `.get`). -/
def JVal.get : JVal → String → JVal
  | .objCons k v rest, key => if k == key then v else rest.get key
  | _, _ => .null

/-- Python str() of a structured value as interpolated into f-strings
(containers abbreviated; `validate_data` only interpolates scalars into the
messages the claims are about). -/
def JVal.pyStr : JVal → String
  | .null => "None"
  | .bool true => "True"
  | .bool false => "False"
  | .num n => toString n
  | .str s => s
  | .arrNil => "[]"
  | .arrCons _ _ => "[...]"
  | .objNil => "\x7b\x7d"
  | .objCons _ _ _ => "\x7b...\x7d"

/-- The exceptions `validate_data` can raise: a Python `KeyError`/`TypeError`
from direct subscripting, the retryable `ValidationError`, and the fatal
`ValidationErrorJobFailed` (`openshift_base.py` lines 29-34: both are direct
`Exception` subclasses — `ValidationErrorJobFailed` is *not* a
`ValidationError`). -/
inductive PyExc where
  | keyError (k : String)
  | typeError (k : String)
  | validationError (m : String)
  | jobFailed (m : String)
deriving DecidableEq, Repr

/-- Python `d[k]` subscripting: `KeyError` when the key is absent,
`TypeError` when the value is not a dict. -/
def getItem : JVal → String → Except PyExc JVal
  | .objCons k' v rest, k => if k' == k then .ok v else getItem rest k
  | .objNil, k => .error (.keyError k)
  | _, k => .error (.typeError k)

/-- The kinds `validate_data` knows how to validate
(`openshift_base.py` lines 558-566). -/
def supported_kinds_validate : List String :=
  ["Deployment", "DeploymentConfig", "StatefulSet", "Subscription", "Job",
   "ClowdApp", "ClowdJobInvocation"]

/-- The deployment-like kinds (`openshift_base.py` line 586). -/
def deployment_like_kinds : List String :=
  ["Deployment", "DeploymentConfig", "StatefulSet"]

/-- The first condition with `type == 'Failed'` in a conditions list
(the loop at `openshift_base.py` lines 616-619 raises on the first one). -/
def findFailedCondition : JVal → Option JVal
  | .arrCons c rest =>
      if (c.get "type").beq (.str "Failed") then some c else findFailedCondition rest
  | _ => none

/-- The entries of a dict value (`.items()`), empty on non-dicts. -/
def jItems : JVal → List (String × JVal)
  | .objCons k v rest => (k, v) :: jItems rest
  | _ => []

/-- Python repr of a list of strings, as interpolated by
`f'... failed jobs: {failed_jobs}'`. -/
def pyReprStrList (l : List String) : String :=
  "[" ++ String.intercalate ", " (l.map (fun s => "\x27" ++ s ++ "\x27")) ++ "]"

/-- The body of the `validate_data` loop for one fetched resource
(`openshift_base.py` lines 582-655): the status check followed by the
kind-specific readiness predicate. -/
def validateResource (kind name : String) (resource : JVal) : Except PyExc Unit :=
  let status := resource.get "status"
  if !status.truthy then
    .error (.validationError "status")
  else if deployment_like_kinds.contains kind then
    match getItem resource "spec" with
    | .error e => .error e
    | .ok spec_field =>
      match getItem spec_field "replicas" with
      | .error e => .error e
      | .ok desired_replicas =>
        if desired_replicas.beq (.num 0) then
          .ok ()
        else
          let replicas := status.get "replicas"
          if replicas.beq (.num 0) then
            .ok ()
          else
            let updated_replicas := status.get "updatedReplicas"
            let ready_replicas := status.get "readyReplicas"
            if !(desired_replicas.beq replicas && replicas.beq ready_replicas
                  && ready_replicas.beq updated_replicas) then
              .error (.validationError name)
            else
              .ok ()
  else if kind == "Subscription" then
    let state := status.get "state"
    if !(state.beq (.str "AtLatestKnown")) then
      .error (.validationError name)
    else
      .ok ()
  else if kind == "Job" then
    let succeeded := status.get "succeeded"
    if succeeded.truthy then
      .ok ()
    else
      let conditions := status.get "conditions"
      match (if conditions.truthy then findFailedCondition conditions else none) with
      | some c => .error (.jobFailed (name ++ ": " ++ (c.get "reason").pyStr))
      | none => .error (.validationError name)
  else if kind == "ClowdApp" then
    let deployments := status.get "deployments"
    if !deployments.truthy then
      .error (.validationError name)
    else
      let managed := deployments.get "managedDeployments"
      let ready := deployments.get "readyDeployments"
      if !(managed.beq ready) then
        .error (.validationError name)
      else
        .ok ()
  else if kind == "ClowdJobInvocation" then
    let completed := status.get "completed"
    let jobs := status.get "jobMap"
    if completed.truthy then
      let failed_jobs := (jItems jobs).filterMap
        (fun p => if p.2.beq (.str "Failed") then some p.1 else none)
      if !failed_jobs.isEmpty then
        .error (.jobFailed ("CJI " ++ name ++ " failed jobs: " ++ pyReprStrList failed_jobs))
      else
        .ok ()
    else
      .error (.validationError name)
  else
    .ok ()

/-- One action of the `validate_data` loop (`openshift_base.py` lines
567-581): only `applied` actions of supported kinds are validated, and a
cluster whose client cannot be resolved is logged and skipped.  `fetch` is
`oc.get(namespace, kind, name=name)`. -/
def validate_one_action (ocResolves : String → Bool)
    (fetch : String → String → String → String → JVal) (a : Action) :
    Except PyExc Unit :=
  if a.action == ACTION_APPLIED then
    if supported_kinds_validate.contains a.kind then
      if ocResolves a.cluster then
        validateResource a.kind a.name (fetch a.cluster a.namespaceName a.kind a.name)
      else .ok ()
    else .ok ()
  else .ok ()

/-- One attempt of `validate_data` over the whole action list; the first
exception aborts the loop. -/
def validate_data_attempt (ocResolves : String → Bool)
    (fetch : String → String → String → String → JVal) :
    List Action → Except PyExc Unit
  | [] => .ok ()
  | a :: rest =>
      match validate_one_action ocResolves fetch a with
      | .error e => .error e
      | .ok _ => validate_data_attempt ocResolves fetch rest

/-- The `@retry(exceptions=(ValidationError), max_attempts=100)` wrapper from
`sretoolbox` (`openshift_base.py` line 549): re-runs the attempt (indexed by
attempt number, so repeated polling can observe fresh state) while it raises
`ValidationError`, up to the given number of remaining retries; any other
exception — in particular `ValidationErrorJobFailed` — propagates
immediately. -/
def retry_validation (f : Nat → Except PyExc Unit) (i : Nat) :
    Nat → Except PyExc Unit
  | 0 => f i
  | retriesLeft + 1 =>
      match f i with
      | .error (.validationError _) => retry_validation f (i + 1) retriesLeft
      | r => r

/-- `validate_data` with its retry decorator: up to 100 attempts. -/
def validate_data (ocResolves : String → Bool)
    (fetch : Nat → String → String → String → String → JVal)
    (actions : List Action) : Except PyExc Unit :=
  retry_validation (fun i => validate_data_attempt ocResolves (fetch i) actions) 0 99

/-- A `managedResourceNames` entry of a namespace declaration:
`{'resource': ..., 'resourceNames': [...]}`. -/
structure Mrn where
  resource : String
  resourceNames : List String
deriving DecidableEq, Repr

/-- A `managedResourceTypeOverrides` entry of a namespace declaration:
`{'resource': ..., 'override': ...}`. -/
structure TypeOverride where
  resource : String
  override : String
deriving DecidableEq, Repr

/-- A namespace declaration as consumed by `init_specs_to_fetch`.
`managedTypesVal` is the value stored under the caller-chosen
`managed_types_key` (`'managedResourceTypes'` by default); optional fields
mirror keys that may be absent or `None`. -/
structure NamespaceInfo where
  clusterName : String
  name : String
  clusterAdmin : Option Bool
  managedTypesVal : Option (List String)
  managedResourceNames : Option (List Mrn)
  managedResourceTypeOverrides : Option (List TypeOverride)
  openshiftResources : Option (List String)
deriving DecidableEq, Repr

/-- A cluster declaration as consumed by `init_specs_to_fetch`. -/
structure ClusterInfo where
  name : String
deriving DecidableEq, Repr

/-- `StateSpec` (`openshift_base.py` lines 37-49).  The `oc` client handle is
represented by the `(cluster, privileged)` pair it was acquired with;
`resource` holds the resource kind for current specs and the (opaque)
openshift resource declaration for desired specs; `namespaceName` is the
`namespace` attribute. -/
structure StateSpec where
  type : String
  oc : String × Bool
  cluster : String
  namespaceName : String
  resource : String
  parent : Option NamespaceInfo
  resource_type_override : Option String
  resource_names : Option (List String)
  privileged : Bool
deriving DecidableEq, Repr

/-- The loop over `resource_names.items()` (`openshift_base.py` lines
127-134): one name-restricted current `StateSpec` per entry (privileged left
at its `False` default), consuming the kind out of `managed_types`. -/
def named_current_specs (cluster ns : String) (ocPriv : Bool)
    (rto : List (String × String)) :
    List (String × List String) → List String → List StateSpec × List String
  | [], mt => ([], mt)
  | p :: rest, mt =>
      let spec : StateSpec :=
        ⟨"current", (cluster, ocPriv), cluster, ns, p.1, none,
         alookup rto p.1, some p.2, false⟩
      let out := named_current_specs cluster ns ocPriv rto rest (mt.erase p.1)
      (spec :: out.1, out.2)

/-- The effective managed-types set of a namespace (`openshift_base.py`
lines 64-68): the caller's override list when given, else the namespace's
declared list; `set(...)` is modelled as order-preserving deduplication. -/
def effective_managed_types (override_managed_types : Option (List String))
    (nsi : NamespaceInfo) : List String :=
  match override_managed_types with
  | none => (nsi.managedTypesVal.getD []).eraseDups
  | some l => l.eraseDups

/-- The namespaces branch of `init_specs_to_fetch` for one namespace
(`openshift_base.py` lines 63-156).  `ocGet cluster privileged` models
`oc_map.get`; when it fails, `ocErrLevelIsError cluster` tells whether the
returned `OCLogMsg` carries an ERROR level (in which case
`ri.register_error()` is called).  Raised `KeyError`s become `.error`. -/
def process_namespace (ocGet : String → Bool → Bool) (ocErrLevelIsError : String → Bool)
    (override_managed_types : Option (List String)) (nsi : NamespaceInfo) (ri : RI) :
    Except String (List StateSpec × RI) :=
  let managed_types := effective_managed_types override_managed_types nsi
  if managed_types.isEmpty then .ok ([], ri)
  else
    let cluster := nsi.clusterName
    let privileged := nsi.clusterAdmin == some true
    if !ocGet cluster privileged then
      .ok ([], if ocErrLevelIsError cluster then register_error ri none else ri)
    else
      let ns := nsi.name
      let mrns := (nsi.managedResourceNames.getD [])
      let mrtos := (nsi.managedResourceTypeOverrides.getD [])
      let ri1 := managed_types.foldl (fun r t => init_resource_type r cluster ns t) ri
      match (mrns.foldlM
          (fun (acc : List (String × List String)) mrn =>
            if managed_types.contains mrn.resource then
              .ok (assoc_insert acc mrn.resource mrn.resourceNames)
            else if pyTruthyList override_managed_types then
              .ok acc
            else
              .error ("KeyError: Non-managed resource name listed on "
                ++ cluster ++ "/" ++ ns))
          [] : Except String (List (String × List String))) with
      | .error e => .error e
      | .ok resource_names =>
        match (mrtos.foldlM
            (fun (acc : List (String × String)) o =>
              if managed_types.contains o.resource then
                .ok (assoc_insert acc o.resource o.override)
              else if pyTruthyList override_managed_types then
                .ok acc
              else
                .error ("KeyError: Non-managed override listed on "
                  ++ cluster ++ "/" ++ ns))
            [] : Except String (List (String × String))) with
        | .error e => .error e
        | .ok resource_type_overrides =>
          let named := named_current_specs cluster ns privileged
            resource_type_overrides resource_names managed_types
          let cGeneric := named.2.map (fun t =>
            (⟨"current", (cluster, privileged), cluster, ns, t, none,
              alookup resource_type_overrides t, none, false⟩ : StateSpec))
          let dSpecs := (nsi.openshiftResources.getD []).map (fun r =>
            (⟨"desired", (cluster, privileged), cluster, ns, r, some nsi,
              none, none, privileged⟩ : StateSpec))
          .ok (named.1 ++ cGeneric ++ dSpecs, ri1)

/-- The loop over all namespaces of the namespaces branch, accumulating
specs in order and threading the inventory. -/
def process_namespaces (ocGet : String → Bool → Bool) (ocErrLevelIsError : String → Bool)
    (override_managed_types : Option (List String)) :
    List NamespaceInfo → RI → Except String (List StateSpec × RI)
  | [], ri => .ok ([], ri)
  | nsi :: rest, ri =>
      match process_namespace ocGet ocErrLevelIsError override_managed_types nsi ri with
      | .error e => .error e
      | .ok out1 =>
          match process_namespaces ocGet ocErrLevelIsError override_managed_types
              rest out1.2 with
          | .error e => .error e
          | .ok out2 => .ok (out1.1 ++ out2.1, out2.2)

/-- The clusters branch of `init_specs_to_fetch` (`openshift_base.py` lines
157-180): per cluster and override-managed type, one current and one desired
spec with the namespace fixed to the sentinel `'cluster'` (both built with
the `privileged` default `False`). -/
def process_clusters (ocGet : String → Bool → Bool) (ocErrLevelIsError : String → Bool)
    (override_managed_types : Option (List String)) :
    List ClusterInfo → RI → List StateSpec × RI
  | [], ri => ([], ri)
  | ci :: rest, ri =>
      if !ocGet ci.name false then
        let ri1 := if ocErrLevelIsError ci.name then register_error ri none else ri
        process_clusters ocGet ocErrLevelIsError override_managed_types rest ri1
      else
        let specs := (override_managed_types.getD []).foldl
          (fun acc t => acc
            ++ [(⟨"current", (ci.name, false), ci.name, "cluster", t, none,
                 none, none, false⟩ : StateSpec),
                (⟨"desired", (ci.name, false), ci.name, "cluster", t, none,
                 none, none, false⟩ : StateSpec)])
          []
        let ri1 := (override_managed_types.getD []).foldl
          (fun r t => init_resource_type r ci.name "cluster" t) ri
        let out := process_clusters ocGet ocErrLevelIsError override_managed_types rest ri1
        (specs ++ out.1, out.2)

/-- `init_specs_to_fetch` (`openshift_base.py` lines 52-184): mutually
exclusive namespaces/clusters inputs (Python truthiness), dispatching to the
branch models above. -/
def init_specs_to_fetch (ri : RI) (ocGet : String → Bool → Bool)
    (ocErrLevelIsError : String → Bool)
    (namespaces : Option (List NamespaceInfo)) (clusters : Option (List ClusterInfo))
    (override_managed_types : Option (List String)) :
    Except String (List StateSpec × RI) :=
  if pyTruthyList clusters && pyTruthyList namespaces then
    .error "KeyError: expected only one of clusters or namespaces."
  else if pyTruthyList namespaces then
    process_namespaces ocGet ocErrLevelIsError override_managed_types
      (namespaces.getD []) ri
  else if pyTruthyList clusters then
    .ok (process_clusters ocGet ocErrLevelIsError override_managed_types
      (clusters.getD []) ri)
  else
    .error "KeyError: expected one of clusters or namespaces."

/-! ### Helper lemmas about association lists and list plumbing -/

theorem alookup_nil {α : Type} (k : String) : alookup ([] : List (String × α)) k = none := rfl

theorem alookup_cons {α : Type} (p : String × α) (l : List (String × α)) (k : String) :
    alookup (p :: l) k = if p.1 = k then some p.2 else alookup l k := by
  by_cases h : p.1 = k <;> simp [alookup, List.find?_cons, h]

theorem alookup_append {α : Type} (l1 l2 : List (String × α)) (k : String) :
    alookup (l1 ++ l2) k =
      match alookup l1 k with
      | some v => some v
      | none => alookup l2 k := by
  induction l1 with
  | nil => simp [alookup_nil]
  | cons p rest ih =>
      by_cases h : p.1 = k <;> simp [alookup_cons, h, ih]

theorem alookup_isSome_of_mem {α : Type} {l : List (String × α)} {k : String} {v : α}
    (h : (k, v) ∈ l) : (alookup l k).isSome = true := by
  induction l with
  | nil => simp at h
  | cons p rest ih =>
      rcases List.mem_cons.mp h with h1 | h1
      · subst h1; simp [alookup_cons]
      · by_cases hk : p.1 = k <;> simp [alookup_cons, hk, ih h1]

theorem mem_of_alookup_eq_some {α : Type} {l : List (String × α)} {k : String} {v : α}
    (h : alookup l k = some v) : (k, v) ∈ l := by
  induction l with
  | nil => simp [alookup_nil] at h
  | cons p rest ih =>
      by_cases hk : p.1 = k
      · rw [alookup_cons] at h
        simp [hk] at h
        have hp : p = (k, v) := Prod.ext hk h
        rw [← hp]
        exact List.mem_cons_self p rest
      · rw [alookup_cons] at h
        simp [hk] at h
        exact List.mem_cons_of_mem _ (ih h)

theorem alookup_eq_none_of_not_mem_keys {α : Type} {l : List (String × α)} {k : String}
    (h : k ∉ l.map Prod.fst) : alookup l k = none := by
  induction l with
  | nil => rfl
  | cons p rest ih =>
      simp only [List.map_cons, List.mem_cons] at h
      push_neg at h
      have hpk : p.1 ≠ k := fun hx => h.1 hx.symm
      simp [alookup_cons, hpk, ih h.2]

theorem alookup_eq_some_of_mem_nodup {α : Type} {l : List (String × α)} {k : String} {v : α}
    (hnod : (l.map Prod.fst).Nodup) (h : (k, v) ∈ l) : alookup l k = some v := by
  induction l with
  | nil => simp at h
  | cons p rest ih =>
      simp only [List.map_cons, List.nodup_cons] at hnod
      rcases List.mem_cons.mp h with h1 | h1
      · subst h1; simp [alookup_cons]
      · have hk : p.1 ≠ k := by
          intro he
          exact hnod.1 (he ▸ List.mem_map_of_mem Prod.fst h1)
        simp [alookup_cons, hk, ih hnod.2 h1]

theorem eq_of_mem_keys_nodup {α : Type} {l : List (String × α)} {k : String} {a b : α}
    (hnod : (l.map Prod.fst).Nodup) (ha : (k, a) ∈ l) (hb : (k, b) ∈ l) : a = b := by
  have h1 := alookup_eq_some_of_mem_nodup hnod ha
  have h2 := alookup_eq_some_of_mem_nodup hnod hb
  rw [h1] at h2
  exact Option.some_injective _ h2

/-- Filtering with a predicate that depends only on the key either keeps all
entries of a key or removes them all; lookup is preserved when it keeps
them. -/
theorem alookup_filter_of_key_true {α : Type} (l : List (String × α)) (q : String → Bool)
    (k : String) (hq : q k = true) :
    alookup (l.filter (fun p => q p.1)) k = alookup l k := by
  induction l with
  | nil => rfl
  | cons p rest ih =>
      by_cases hk : p.1 = k
      · subst hk; simp [List.filter_cons, hq, alookup_cons, ih]
      · by_cases hqp : q p.1 <;> simp [List.filter_cons, hqp, alookup_cons, hk, ih]

theorem alookup_filter_of_key_false {α : Type} (l : List (String × α)) (q : String → Bool)
    (k : String) (hq : q k = false) :
    alookup (l.filter (fun p => q p.1)) k = none := by
  induction l with
  | nil => rfl
  | cons p rest ih =>
      by_cases hk : p.1 = k
      · subst hk; simp [List.filter_cons, hq, ih]
      · by_cases hqp : q p.1 <;> simp [List.filter_cons, hqp, alookup_cons, hk, ih]

/-- Lookup in a filterMap whose function keeps keys and is guarded by a
key-only condition. -/
theorem alookup_filterMap_keyGuard (des : List (String × Resource)) (names : List String)
    (k : String) :
    alookup (des.filterMap (fun p =>
        if names.contains p.1 then some (p.1, p.2.annotate) else none)) k
      = if names.contains k then (alookup des k).map Resource.annotate else none := by
  induction des with
  | nil => simp [alookup_nil]
  | cons p rest ih =>
      simp only [List.elem_iff] at ih
      by_cases hc : p.1 ∈ names
      · by_cases hk : p.1 = k
        · subst hk
          simp [List.filterMap_cons, hc, alookup_cons, ih]
        · simp [List.filterMap_cons, hc, alookup_cons, hk, ih]
      · by_cases hk : p.1 = k
        · subst hk
          simp [List.filterMap_cons, hc, alookup_cons, ih]
        · simp [List.filterMap_cons, hc, alookup_cons, hk, ih]

theorem flatten_map_eq_nil {α β : Type} (l : List α) (f : α → List β)
    (h : ∀ x ∈ l, f x = []) : (l.map f).flatten = [] := by
  induction l with
  | nil => rfl
  | cons x rest ih =>
      simp only [List.map_cons, List.flatten_cons, h x (List.mem_cons_self x rest),
        List.nil_append]
      exact ih (fun y hy => h y (List.mem_cons_of_mem x hy))

/-! ### Characterizations of the per-item steps -/

theorem desiredStep_of_skip (env : REnv) (prov : Provider) (cluster ns rt : String)
    (current : List (String × Resource)) (uat : List (String × Bool))
    (name : String) (d : Resource) (h : skipsApply env current name d = true) :
    desiredStep env prov cluster ns rt current uat name d = emptyStep := by
  simp [desiredStep, h]

theorem desiredStep_actions_of_ok (env : REnv) (prov : Provider) (cluster ns rt : String)
    (current : List (String × Resource)) (uat : List (String × Bool))
    (name : String) (d : Resource) (h : prov.applyOutcome name = none) :
    (desiredStep env prov cluster ns rt current uat name d).actions =
      if skipsApply env current name d then []
      else [⟨ACTION_APPLIED, cluster, ns, rt, d.name, (alookup uat name).getD false⟩] := by
  by_cases hs : skipsApply env current name d <;> simp [desiredStep, hs, h, emptyStep]

theorem desiredStep_action_mem (env : REnv) (prov : Provider) (cluster ns rt : String)
    (current : List (String × Resource)) (uat : List (String × Bool))
    (name : String) (d : Resource) {a : Action}
    (h : a ∈ (desiredStep env prov cluster ns rt current uat name d).actions) :
    a.action = ACTION_APPLIED ∧ a.name = d.name := by
  by_cases hs : skipsApply env current name d
  · simp [desiredStep, hs, emptyStep] at h
  · rcases ho : prov.applyOutcome name with _ | e <;>
      simp [desiredStep, hs, ho, emptyStep] at h
    subst h
    exact ⟨rfl, rfl⟩

theorem desiredStep_applyCalls (env : REnv) (prov : Provider) (cluster ns rt : String)
    (current : List (String × Resource)) (uat : List (String × Bool))
    (name : String) (d : Resource) :
    (desiredStep env prov cluster ns rt current uat name d).applyCalls =
      if skipsApply env current name d then [] else [name] := by
  by_cases hs : skipsApply env current name d <;>
    rcases ho : prov.applyOutcome name with _ | e <;>
      simp [desiredStep, hs, ho, emptyStep]

theorem desiredStep_no_deleteCalls (env : REnv) (prov : Provider) (cluster ns rt : String)
    (current : List (String × Resource)) (uat : List (String × Bool))
    (name : String) (d : Resource) :
    (desiredStep env prov cluster ns rt current uat name d).helperDeleteCalls = []
    ∧ (desiredStep env prov cluster ns rt current uat name d).ocDeleteCalls = [] := by
  by_cases hs : skipsApply env current name d <;>
    rcases ho : prov.applyOutcome name with _ | e <;>
      simp [desiredStep, hs, ho, emptyStep]

theorem delete_raised_of_ok (dry_run ocResolves enable_deletion : Bool)
    (ocOutcome : Option String) (h : ocOutcome = none) :
    (delete dry_run ocResolves ocOutcome enable_deletion).raised = none := by
  subst h
  unfold delete
  split <;> try rfl
  split <;> try rfl
  split <;> rfl

theorem delete_not_invoked_of_disabled (dry_run ocResolves : Bool) (ocOutcome : Option String) :
    (delete dry_run ocResolves ocOutcome false).ocDeleted = false := by
  rfl

theorem currentStep_actions_of_ok (env : REnv) (prov : Provider) (cluster ns rt : String)
    (desired : List (String × Resource)) (uat : List (String × Bool))
    (enable_deletion : Bool) (name : String) (c : Resource)
    (h : prov.ocDeleteOutcome name = none) :
    (currentStep env prov cluster ns rt desired uat enable_deletion name c).actions =
      if deleteConsidered env desired name c then
        [⟨ACTION_DELETED, cluster, ns, rt, name, (alookup uat name).getD false⟩]
      else [] := by
  by_cases hs : deleteConsidered env desired name c
  · have hr := delete_raised_of_ok env.dry_run
      (prov.ocResolvesDelete ((alookup uat name).getD false)) enable_deletion
      (prov.ocDeleteOutcome name) h
    simp [currentStep, hs, hr]
  · simp [currentStep, hs, emptyStep]

theorem currentStep_of_not_considered (env : REnv) (prov : Provider) (cluster ns rt : String)
    (desired : List (String × Resource)) (uat : List (String × Bool))
    (enable_deletion : Bool) (name : String) (c : Resource)
    (h : deleteConsidered env desired name c = false) :
    currentStep env prov cluster ns rt desired uat enable_deletion name c = emptyStep := by
  simp [currentStep, h]

theorem currentStep_action_mem (env : REnv) (prov : Provider) (cluster ns rt : String)
    (desired : List (String × Resource)) (uat : List (String × Bool))
    (enable_deletion : Bool) (name : String) (c : Resource) {a : Action}
    (h : a ∈ (currentStep env prov cluster ns rt desired uat enable_deletion name c).actions) :
    a.action = ACTION_DELETED ∧ a.name = name := by
  by_cases hs : deleteConsidered env desired name c
  · simp only [currentStep, hs, if_true] at h
    rcases hr : (delete env.dry_run (prov.ocResolvesDelete ((alookup uat name).getD false))
        (prov.ocDeleteOutcome name) enable_deletion).raised with _ | e <;>
      simp [hr] at h
    subst h
    exact ⟨rfl, rfl⟩
  · simp [currentStep, hs, emptyStep] at h

theorem currentStep_calls_subset (env : REnv) (prov : Provider) (cluster ns rt : String)
    (desired : List (String × Resource)) (uat : List (String × Bool))
    (enable_deletion : Bool) (name : String) (c : Resource) :
    (∀ x ∈ (currentStep env prov cluster ns rt desired uat enable_deletion name c).helperDeleteCalls,
        x = name)
    ∧ (∀ x ∈ (currentStep env prov cluster ns rt desired uat enable_deletion name c).ocDeleteCalls,
        x = name)
    ∧ (currentStep env prov cluster ns rt desired uat enable_deletion name c).applyCalls = [] := by
  by_cases hs : deleteConsidered env desired name c
  · simp only [currentStep, hs, if_true]
    rcases hr : (delete env.dry_run (prov.ocResolvesDelete ((alookup uat name).getD false))
        (prov.ocDeleteOutcome name) enable_deletion).raised with _ | e <;>
      rcases hd : (delete env.dry_run (prov.ocResolvesDelete ((alookup uat name).getD false))
          (prov.ocDeleteOutcome name) enable_deletion).ocDeleted <;>
        simp [hr, hd]
  · simp [currentStep, hs, emptyStep]

theorem currentStep_ocDeleteCalls_disabled (env : REnv) (prov : Provider)
    (cluster ns rt : String) (desired : List (String × Resource))
    (uat : List (String × Bool)) (name : String) (c : Resource) :
    (currentStep env prov cluster ns rt desired uat false name c).ocDeleteCalls = [] := by
  by_cases hs : deleteConsidered env desired name c
  · simp only [currentStep, hs, if_true, delete]
    split <;> simp
  · simp [currentStep, hs, emptyStep]

theorem deleteConsidered_of_desired_present (env : REnv)
    (desired : List (String × Resource)) (name : String) (c : Resource)
    (h : (alookup desired name).isSome = true) :
    deleteConsidered env desired name c = false := by
  simp [deleteConsidered, h]

/-! ### Characterizations of a whole realize pass -/

theorem appliedNames_append (l1 l2 : List Action) :
    appliedNames (l1 ++ l2) = appliedNames l1 ++ appliedNames l2 := by
  simp [appliedNames, List.filter_append]

theorem deletedNames_append (l1 l2 : List Action) :
    deletedNames (l1 ++ l2) = deletedNames l1 ++ deletedNames l2 := by
  simp [deletedNames, List.filter_append]

theorem appliedNames_eq_nil_of_all_deleted (l : List Action)
    (h : ∀ a ∈ l, a.action = ACTION_DELETED) : appliedNames l = [] := by
  simp only [appliedNames, List.map_eq_nil_iff, List.filter_eq_nil_iff]
  intro a ha
  simp [h a ha, ACTION_DELETED, ACTION_APPLIED]

theorem deletedNames_eq_nil_of_all_applied (l : List Action)
    (h : ∀ a ∈ l, a.action = ACTION_APPLIED) : deletedNames l = [] := by
  simp only [deletedNames, List.map_eq_nil_iff, List.filter_eq_nil_iff]
  intro a ha
  simp [h a ha, ACTION_DELETED, ACTION_APPLIED]

theorem realize_eq_of_no_cluster_error (env : REnv) (prov : Provider)
    (cluster ns rt : String) (data : CellData) (ri : RI)
    (hcl : has_error_registered ri (some cluster) = false) :
    _realize_resource_data env prov cluster ns rt data ri =
      (let dOuts := data.desired.map (fun p =>
          desiredStep env prov cluster ns rt data.current data.use_admin_token p.1 p.2)
       let cOuts := data.current.map (fun p =>
          currentStep env prov cluster ns rt data.desired data.use_admin_token
            (enableDeletion env ri) p.1 p.2)
       let outs := dOuts ++ cOuts
       ⟨(outs.map StepOut.actions).flatten,
        { ri with errorRegistered := ri.errorRegistered || outs.any StepOut.errored },
        (outs.map StepOut.logs).flatten,
        (outs.map StepOut.applyCalls).flatten,
        (outs.map StepOut.helperDeleteCalls).flatten,
        (outs.map StepOut.ocDeleteCalls).flatten⟩) := by
  simp [_realize_resource_data, hcl]

theorem appliedNames_desired_flatten (env : REnv) (prov : Provider)
    (cluster ns rt : String) (cur : List (String × Resource)) (uat : List (String × Bool))
    (des : List (String × Resource))
    (hA : ∀ n, prov.applyOutcome n = none)
    (hW : ∀ p ∈ des, p.2.name = p.1) :
    appliedNames ((des.map (fun p =>
        desiredStep env prov cluster ns rt cur uat p.1 p.2)).map StepOut.actions).flatten
      = des.filterMap (fun p =>
          if skipsApply env cur p.1 p.2 then none else some p.1) := by
  induction des with
  | nil => rfl
  | cons p rest ih =>
      have hWp := hW p (List.mem_cons_self p rest)
      have hWr : ∀ q ∈ rest, q.2.name = q.1 :=
        fun q hq => hW q (List.mem_cons_of_mem p hq)
      simp only [List.map_cons, List.flatten_cons, appliedNames_append,
        List.filterMap_cons, ih hWr]
      rw [desiredStep_actions_of_ok env prov cluster ns rt cur uat p.1 p.2 (hA p.1)]
      by_cases hs : skipsApply env cur p.1 p.2
      · simp [hs, appliedNames]
      · simp [hs, appliedNames, ACTION_APPLIED, hWp]

theorem deletedNames_current_flatten (env : REnv) (prov : Provider)
    (cluster ns rt : String) (des : List (String × Resource)) (uat : List (String × Bool))
    (ed : Bool) (cur : List (String × Resource))
    (hD : ∀ n, prov.ocDeleteOutcome n = none) :
    deletedNames ((cur.map (fun p =>
        currentStep env prov cluster ns rt des uat ed p.1 p.2)).map StepOut.actions).flatten
      = cur.filterMap (fun p =>
          if deleteConsidered env des p.1 p.2 then some p.1 else none) := by
  induction cur with
  | nil => rfl
  | cons p rest ih =>
      simp only [List.map_cons, List.flatten_cons, deletedNames_append,
        List.filterMap_cons, ih]
      rw [currentStep_actions_of_ok env prov cluster ns rt des uat ed p.1 p.2 (hD p.1)]
      by_cases hs : deleteConsidered env des p.1 p.2
      · simp [hs, deletedNames, ACTION_DELETED]
      · simp [hs, deletedNames]

theorem appliedNames_current_flatten (env : REnv) (prov : Provider)
    (cluster ns rt : String) (des : List (String × Resource)) (uat : List (String × Bool))
    (ed : Bool) (cur : List (String × Resource)) :
    appliedNames ((cur.map (fun p =>
        currentStep env prov cluster ns rt des uat ed p.1 p.2)).map StepOut.actions).flatten
      = [] := by
  induction cur with
  | nil => rfl
  | cons p rest ih =>
      simp only [List.map_cons, List.flatten_cons, appliedNames_append, ih,
        List.append_nil]
      exact appliedNames_eq_nil_of_all_deleted _
        (fun a ha => (currentStep_action_mem env prov cluster ns rt des uat ed p.1 p.2 ha).1)

theorem deletedNames_desired_flatten (env : REnv) (prov : Provider)
    (cluster ns rt : String) (cur : List (String × Resource)) (uat : List (String × Bool))
    (des : List (String × Resource)) :
    deletedNames ((des.map (fun p =>
        desiredStep env prov cluster ns rt cur uat p.1 p.2)).map StepOut.actions).flatten
      = [] := by
  induction des with
  | nil => rfl
  | cons p rest ih =>
      simp only [List.map_cons, List.flatten_cons, deletedNames_append, ih,
        List.append_nil]
      exact deletedNames_eq_nil_of_all_applied _
        (fun a ha => (desiredStep_action_mem env prov cluster ns rt cur uat p.1 p.2 ha).1)

theorem appliedNames_realize (env : REnv) (prov : Provider)
    (cluster ns rt : String) (data : CellData) (ri : RI)
    (hcl : has_error_registered ri (some cluster) = false)
    (hA : ∀ n, prov.applyOutcome n = none)
    (hW : ∀ p ∈ data.desired, p.2.name = p.1) :
    appliedNames (_realize_resource_data env prov cluster ns rt data ri).actions
      = data.desired.filterMap (fun p =>
          if skipsApply env data.current p.1 p.2 then none else some p.1) := by
  rw [realize_eq_of_no_cluster_error env prov cluster ns rt data ri hcl]
  simp only [List.map_append, List.flatten_append, appliedNames_append]
  rw [appliedNames_desired_flatten env prov cluster ns rt data.current data.use_admin_token
      data.desired hA hW,
    appliedNames_current_flatten env prov cluster ns rt data.desired data.use_admin_token
      (enableDeletion env ri) data.current]
  simp

theorem deletedNames_realize (env : REnv) (prov : Provider)
    (cluster ns rt : String) (data : CellData) (ri : RI)
    (hcl : has_error_registered ri (some cluster) = false)
    (hD : ∀ n, prov.ocDeleteOutcome n = none) :
    deletedNames (_realize_resource_data env prov cluster ns rt data ri).actions
      = data.current.filterMap (fun p =>
          if deleteConsidered env data.desired p.1 p.2 then some p.1 else none) := by
  rw [realize_eq_of_no_cluster_error env prov cluster ns rt data ri hcl]
  simp only [List.map_append, List.flatten_append, deletedNames_append]
  rw [deletedNames_desired_flatten env prov cluster ns rt data.current data.use_admin_token
      data.desired,
    deletedNames_current_flatten env prov cluster ns rt data.desired data.use_admin_token
      (enableDeletion env ri) data.current hD]
  simp

theorem realize_ri_clusterErrors (env : REnv) (prov : Provider)
    (cluster ns rt : String) (data : CellData) (ri : RI) :
    (_realize_resource_data env prov cluster ns rt data ri).ri.clusterErrors
      = ri.clusterErrors := by
  unfold _realize_resource_data
  split <;> rfl

theorem flatten_map_map_actions_eq_nil {α : Type} (l : List α) (f : α → StepOut)
    (h : ∀ x ∈ l, (f x).actions = []) :
    ((l.map f).map StepOut.actions).flatten = [] := by
  rw [List.map_map]
  exact flatten_map_eq_nil l _ h

theorem flatten_map_map_field_eq_nil {α β : Type} (l : List α) (f : α → StepOut)
    (g : StepOut → List β) (h : ∀ x ∈ l, g (f x) = []) :
    ((l.map f).map g).flatten = [] := by
  rw [List.map_map]
  exact flatten_map_eq_nil l _ h

theorem mem_flatten_map_map {α β : Type} {l : List α} {f : α → StepOut}
    {g : StepOut → List β} {b : β} :
    b ∈ ((l.map f).map g).flatten ↔ ∃ x ∈ l, b ∈ g (f x) := by
  rw [List.map_map]
  simp only [List.mem_flatten, List.mem_map, Function.comp_apply]
  constructor
  · rintro ⟨l', ⟨x, hx, rfl⟩, hb⟩
    exact ⟨x, hx, hb⟩
  · rintro ⟨x, hx, hb⟩
    exact ⟨_, ⟨x, hx, rfl⟩, hb⟩

theorem isSome_false_of_deleteConsidered (env : REnv)
    (desired : List (String × Resource)) (name : String) (c : Resource)
    (h : deleteConsidered env desired name c = true) :
    (alookup desired name).isSome = false := by
  by_cases hs : (alookup desired name).isSome
  · rw [deleteConsidered_of_desired_present env desired name c hs] at h
    exact absurd h (by simp)
  · simpa using hs

/-- After a successful apply the live object is the annotated desired body;
the compare chain then always skips it (in a comparing run whose desired
items carry no stale self-annotation). -/
theorem applySkip_annotate_self (env : REnv) (d : Resource)
    (hcompare : env.dry_run = true ∨ env.no_dry_run_skip_compare = false)
    (hsha : d.annotations.all (fun a => a.sha256sum == d.canonicalBody) = true) :
    applySkip env d d.annotate = true := by
  have hgate : (!env.dry_run && env.no_dry_run_skip_compare) = false := by
    rcases hcompare with h | h <;> simp [h]
  have hann : (d.annotate).has_qontract_annotations = true := by
    simp [Resource.annotate, Resource.has_qontract_annotations]
  have heq : resourceEqual d d.annotate = true := by
    simp [resourceEqual, Resource.annotate]
  have hshaEq : ((d.annotate).sha256sum == d.sha256sum) = true := by
    rcases hda : d.annotations with _ | a
    · simp [Resource.sha256sum, Resource.annotate, Resource.calculate_sha256sum, hda]
    · have ha : a.sha256sum = d.canonicalBody := by
        rw [hda] at hsha
        simpa using hsha
      simp [Resource.sha256sum, Resource.annotate, Resource.calculate_sha256sum, hda, ha]
  have hval : (d.annotate).has_valid_sha256sum = true := by
    simp [Resource.has_valid_sha256sum, Resource.annotate, Resource.calculate_sha256sum]
  by_cases hct : (callerTruthy env && env.take_over) = true <;>
    simp [applySkip, hgate, hann, heq, hshaEq, hval, hct]

/-- C1 (amended): idempotence of `_realize_resource_data`.  For an inventory
cell with no error registered for its cluster, all provider calls
succeeding, a run that does not skip the compare step (`dry_run` true or
`no_dry_run_skip_compare` false), duplicate-free well-keyed desired items
whose stored content hashes (if any) are valid: after running once and
feeding the resulting live state back as the current side (applied items
present as their annotated bodies, deleted names absent), a second run
produces an empty action list. -/
theorem realize_idempotent_second_run_empty
    (env : REnv) (prov : Provider) (cluster ns rt : String) (data : CellData) (ri : RI)
    (hA : ∀ n, prov.applyOutcome n = none)
    (hD : ∀ n, prov.ocDeleteOutcome n = none)
    (hcl : has_error_registered ri (some cluster) = false)
    (hcompare : env.dry_run = true ∨ env.no_dry_run_skip_compare = false)
    (hnodD : (data.desired.map Prod.fst).Nodup)
    (hW : ∀ p ∈ data.desired, p.2.name = p.1)
    (hsha : ∀ p ∈ data.desired,
      p.2.annotations.all (fun a => a.sha256sum == p.2.canonicalBody) = true) :
    (_realize_resource_data env prov cluster ns rt
      ⟨data.desired,
       feedbackCurrent data.desired data.current
         (_realize_resource_data env prov cluster ns rt data ri).actions,
       data.use_admin_token⟩
      (_realize_resource_data env prov cluster ns rt data ri).ri).actions = [] := by
  have hcl2 : has_error_registered
      (_realize_resource_data env prov cluster ns rt data ri).ri (some cluster) = false := by
    simp only [has_error_registered] at hcl ⊢
    rw [realize_ri_clusterErrors]
    exact hcl
  have happ := appliedNames_realize env prov cluster ns rt data ri hcl hA hW
  have hdel := deletedNames_realize env prov cluster ns rt data ri hcl hD
  rw [realize_eq_of_no_cluster_error _ _ _ _ _ _ _ hcl2]
  simp only [List.map_append, List.flatten_append, List.append_eq_nil]
  constructor
  · -- desired pass of the second run: every item is skipped
    apply flatten_map_map_actions_eq_nil
    intro p hp
    have hdesLookup : alookup data.desired p.1 = some p.2 :=
      alookup_eq_some_of_mem_nodup hnodD hp
    have hnotdel : p.1 ∉ deletedNames (_realize_resource_data env prov cluster ns rt data ri).actions := by
      rw [hdel]
      intro hmem
      obtain ⟨q, hq, hqe⟩ := List.mem_filterMap.mp hmem
      by_cases hcons : deleteConsidered env data.desired q.1 q.2 = true
      · simp only [hcons, if_true, Option.some.injEq] at hqe
        have := isSome_false_of_deleteConsidered env data.desired q.1 q.2 hcons
        rw [hqe, hdesLookup] at this
        simp at this
      · simp [hcons] at hqe
    suffices hskip2 : skipsApply env
        (feedbackCurrent data.desired data.current
          (_realize_resource_data env prov cluster ns rt data ri).actions) p.1 p.2 = true by
      simp [desiredStep, hskip2, emptyStep]
    by_cases hskip : skipsApply env data.current p.1 p.2 = true
    · -- the item was skipped in the first run: its current item is unchanged
      have hnotapp : p.1 ∉
          appliedNames (_realize_resource_data env prov cluster ns rt data ri).actions := by
        rw [happ]
        intro hmem
        obtain ⟨q, hq, hqe⟩ := List.mem_filterMap.mp hmem
        by_cases hsq : skipsApply env data.current q.1 q.2 = true
        · simp [hsq] at hqe
        · simp only [hsq, Bool.false_eq_true, if_false, Option.some.injEq] at hqe
          have hq' : (p.1, q.2) ∈ data.desired := by rw [← hqe]; exact hq
          have : q.2 = p.2 := eq_of_mem_keys_nodup hnodD hq' hp
          rw [hqe, this] at hsq
          exact hsq hskip
      have hfilter : alookup
          ((data.current).filter (fun q =>
            !(deletedNames (_realize_resource_data env prov cluster ns rt data ri).actions).contains q.1
            && !(appliedNames (_realize_resource_data env prov cluster ns rt data ri).actions).contains q.1))
          p.1 = alookup data.current p.1 := by
        exact alookup_filter_of_key_true data.current
          (fun k =>
            !(deletedNames (_realize_resource_data env prov cluster ns rt data ri).actions).contains k
            && !(appliedNames (_realize_resource_data env prov cluster ns rt data ri).actions).contains k)
          p.1 (by simp [List.elem_iff, hnotdel, hnotapp])
      unfold skipsApply at hskip ⊢
      rcases hcur : alookup data.current p.1 with _ | c
      · rw [hcur] at hskip
        simp at hskip
      · rw [hcur] at hskip
        unfold feedbackCurrent
        rw [alookup_append, hfilter, hcur]
        exact hskip
    · -- the item was applied in the first run: its annotated body is fed back
      have happmem : p.1 ∈
          appliedNames (_realize_resource_data env prov cluster ns rt data ri).actions := by
        rw [happ]
        exact List.mem_filterMap.mpr ⟨p, hp, by simp [hskip]⟩
      have hfilter : alookup
          ((data.current).filter (fun q =>
            !(deletedNames (_realize_resource_data env prov cluster ns rt data ri).actions).contains q.1
            && !(appliedNames (_realize_resource_data env prov cluster ns rt data ri).actions).contains q.1))
          p.1 = none := by
        exact alookup_filter_of_key_false data.current
          (fun k =>
            !(deletedNames (_realize_resource_data env prov cluster ns rt data ri).actions).contains k
            && !(appliedNames (_realize_resource_data env prov cluster ns rt data ri).actions).contains k)
          p.1 (by simp [List.elem_iff, happmem])
      have happend := alookup_filterMap_keyGuard data.desired
        (appliedNames (_realize_resource_data env prov cluster ns rt data ri).actions) p.1
      unfold skipsApply
      unfold feedbackCurrent
      rw [alookup_append, hfilter, happend]
      have hcontains : (appliedNames
          (_realize_resource_data env prov cluster ns rt data ri).actions).contains p.1 = true := by
        simpa [List.elem_iff] using happmem
      rw [hcontains, if_pos rfl, hdesLookup]
      simp only [Option.map_some]
      exact applySkip_annotate_self env p.2 hcompare (hsha p hp)
  · -- current pass of the second run: nothing is considered for deletion
    apply flatten_map_map_actions_eq_nil
    intro q hq
    rw [currentStep_actions_of_ok env prov cluster ns rt data.desired data.use_admin_token
      _ q.1 q.2 (hD q.1)]
    suffices hns : deleteConsidered env data.desired q.1 q.2 = false by simp [hns]
    unfold feedbackCurrent at hq
    rcases List.mem_append.mp hq with hq1 | hq2
    · -- an untouched current item: it was not considered in the first run either
      have hqc := List.mem_filter.mp hq1
      by_cases hcons : deleteConsidered env data.desired q.1 q.2 = true
      · exfalso
        have hmem : q.1 ∈
            deletedNames (_realize_resource_data env prov cluster ns rt data ri).actions := by
          rw [hdel]
          exact List.mem_filterMap.mpr ⟨q, hqc.1, by simp [hcons]⟩
        have := hqc.2
        simp [List.elem_iff, hmem] at this
      · simpa using hcons
    · -- a fed-back applied item: its name is a desired key
      obtain ⟨p', hp', hpe⟩ := List.mem_filterMap.mp hq2
      simp only [Option.ite_none_right_eq_some, Option.some.injEq] at hpe
      have hk : q.1 = p'.1 := by rw [← hpe.2]
      apply deleteConsidered_of_desired_present
      rw [hk]
      exact alookup_isSome_of_mem hp'

/-- C1 counterexample: the claim as stated (for *every* cell with no error
registered) is false.  With `dry_run = False` and
`no_dry_run_skip_compare = True` the compare step is skipped and the second
run re-applies every desired item, so its action list is not empty even
though the live state was fed back unchanged. -/
theorem realize_second_run_not_empty_skip_compare :
    (_realize_resource_data ⟨false, false, none, false, true, none, true⟩
      ⟨fun _ => none, fun _ => true, fun _ => none⟩ "c" "ns" "ConfigMap"
      ⟨[("a", ⟨"a", "bodyA", none, none, false, ""⟩)],
       feedbackCurrent [("a", ⟨"a", "bodyA", none, none, false, ""⟩)] []
         (_realize_resource_data ⟨false, false, none, false, true, none, true⟩
           ⟨fun _ => none, fun _ => true, fun _ => none⟩ "c" "ns" "ConfigMap"
           ⟨[("a", ⟨"a", "bodyA", none, none, false, ""⟩)], [], []⟩
           ⟨false, [], []⟩).actions,
       []⟩
      (_realize_resource_data ⟨false, false, none, false, true, none, true⟩
        ⟨fun _ => none, fun _ => true, fun _ => none⟩ "c" "ns" "ConfigMap"
        ⟨[("a", ⟨"a", "bodyA", none, none, false, ""⟩)], [], []⟩
        ⟨false, [], []⟩).ri).actions ≠ [] := by
  decide

/-- C1 witness: the amended idempotence theorem applied to a concrete cell
(one desired item, empty current side, dry-run). -/
theorem realize_idempotent_second_run_empty_witness :
    (_realize_resource_data ⟨true, false, none, false, false, none, true⟩
      ⟨fun _ => none, fun _ => true, fun _ => none⟩ "c" "ns" "ConfigMap"
      ⟨[("a", ⟨"a", "bodyA", none, none, false, ""⟩)],
       feedbackCurrent [("a", ⟨"a", "bodyA", none, none, false, ""⟩)] []
         (_realize_resource_data ⟨true, false, none, false, false, none, true⟩
           ⟨fun _ => none, fun _ => true, fun _ => none⟩ "c" "ns" "ConfigMap"
           ⟨[("a", ⟨"a", "bodyA", none, none, false, ""⟩)], [], []⟩
           ⟨false, [], []⟩).actions,
       []⟩
      (_realize_resource_data ⟨true, false, none, false, false, none, true⟩
        ⟨fun _ => none, fun _ => true, fun _ => none⟩ "c" "ns" "ConfigMap"
        ⟨[("a", ⟨"a", "bodyA", none, none, false, ""⟩)], [], []⟩
        ⟨false, [], []⟩).ri).actions = [] :=
  realize_idempotent_second_run_empty
    ⟨true, false, none, false, false, none, true⟩
    ⟨fun _ => none, fun _ => true, fun _ => none⟩ "c" "ns" "ConfigMap"
    ⟨[("a", ⟨"a", "bodyA", none, none, false, ""⟩)], [], []⟩ ⟨false, [], []⟩
    (fun _ => rfl) (fun _ => rfl) (by decide) (Or.inl rfl) (by decide)
    (by decide) (by decide)

/-- C2: cluster error short-circuit — a cell of a cluster with a registered
error is skipped entirely: no actions, no `apply` helper invocation, no
`delete` helper invocation, no provider delete. -/
theorem realize_cluster_error_short_circuit
    (env : REnv) (prov : Provider) (cluster ns rt : String) (data : CellData) (ri : RI)
    (h : has_error_registered ri (some cluster) = true) :
    (_realize_resource_data env prov cluster ns rt data ri).actions = []
    ∧ (_realize_resource_data env prov cluster ns rt data ri).applyCalls = []
    ∧ (_realize_resource_data env prov cluster ns rt data ri).helperDeleteCalls = []
    ∧ (_realize_resource_data env prov cluster ns rt data ri).ocDeleteCalls = [] := by
  simp [_realize_resource_data, h]

/-- C2 witness: the short-circuit applied to a concrete cell with a desired
item and a deletable current item on an errored cluster. -/
theorem realize_cluster_error_short_circuit_witness :
    (_realize_resource_data ⟨false, false, none, false, false, none, true⟩
      ⟨fun _ => none, fun _ => true, fun _ => none⟩ "c1" "ns" "Secret"
      ⟨[("a", ⟨"a", "bodyA", none, none, false, ""⟩)],
       [("x", ⟨"x", "bodyX", some ⟨"bodyX", none⟩, none, false, ""⟩)], []⟩
      ⟨false, ["c1"], []⟩).actions = []
    ∧ (_realize_resource_data ⟨false, false, none, false, false, none, true⟩
      ⟨fun _ => none, fun _ => true, fun _ => none⟩ "c1" "ns" "Secret"
      ⟨[("a", ⟨"a", "bodyA", none, none, false, ""⟩)],
       [("x", ⟨"x", "bodyX", some ⟨"bodyX", none⟩, none, false, ""⟩)], []⟩
      ⟨false, ["c1"], []⟩).applyCalls = []
    ∧ (_realize_resource_data ⟨false, false, none, false, false, none, true⟩
      ⟨fun _ => none, fun _ => true, fun _ => none⟩ "c1" "ns" "Secret"
      ⟨[("a", ⟨"a", "bodyA", none, none, false, ""⟩)],
       [("x", ⟨"x", "bodyX", some ⟨"bodyX", none⟩, none, false, ""⟩)], []⟩
      ⟨false, ["c1"], []⟩).helperDeleteCalls = []
    ∧ (_realize_resource_data ⟨false, false, none, false, false, none, true⟩
      ⟨fun _ => none, fun _ => true, fun _ => none⟩ "c1" "ns" "Secret"
      ⟨[("a", ⟨"a", "bodyA", none, none, false, ""⟩)],
       [("x", ⟨"x", "bodyX", some ⟨"bodyX", none⟩, none, false, ""⟩)], []⟩
      ⟨false, ["c1"], []⟩).ocDeleteCalls = [] :=
  realize_cluster_error_short_circuit
    ⟨false, false, none, false, false, none, true⟩
    ⟨fun _ => none, fun _ => true, fun _ => none⟩ "c1" "ns" "Secret"
    ⟨[("a", ⟨"a", "bodyA", none, none, false, ""⟩)],
     [("x", ⟨"x", "bodyX", some ⟨"bodyX", none⟩, none, false, ""⟩)], []⟩
    ⟨false, ["c1"], []⟩ (by decide)

/-- C3 counterexample: the claim as stated is false — with a registered
global error (deletion disabled) the action list still records a `deleted`
Action for a deletable orphan current item, even though no provider delete
was invoked. -/
theorem realize_deleted_action_despite_disabled_deletion :
    ¬ (∀ a ∈ (_realize_resource_data ⟨false, false, none, false, false, none, true⟩
        ⟨fun _ => none, fun _ => true, fun _ => none⟩ "c" "ns" "Secret"
        ⟨[], [("x", ⟨"x", "bodyX", some ⟨"bodyX", none⟩, none, false, ""⟩)], []⟩
        ⟨true, [], []⟩).actions, a.action ≠ ACTION_DELETED) := by
  decide

/-- C3 (amended): when the inventory has a registered global error, or the
caller passed `override_enable_deletion = False`, `_realize_resource_data`
never invokes the provider delete (`oc.delete`) — though `deleted` Action
records may still be appended for items that pass the ownership filters. -/
theorem realize_no_provider_delete_when_disabled
    (env : REnv) (prov : Provider) (cluster ns rt : String) (data : CellData) (ri : RI)
    (h : ri.errorRegistered = true ∨ env.override_enable_deletion = some false) :
    (_realize_resource_data env prov cluster ns rt data ri).ocDeleteCalls = [] := by
  by_cases hcl : has_error_registered ri (some cluster) = true
  · simp [_realize_resource_data, hcl]
  · have hcl' : has_error_registered ri (some cluster) = false := by
      simpa using hcl
    have hed : enableDeletion env ri = false := by
      rcases h with h | h
      · simp [enableDeletion, has_error_registered, h]
      · by_cases hglob : ri.errorRegistered <;>
          simp [enableDeletion, has_error_registered, hglob, h]
    rw [realize_eq_of_no_cluster_error _ _ _ _ _ _ _ hcl']
    simp only [List.map_append, List.flatten_append, List.append_eq_nil, hed]
    constructor
    · exact flatten_map_map_field_eq_nil _ _ _
        (fun p _ => (desiredStep_no_deleteCalls env prov cluster ns rt data.current
          data.use_admin_token p.1 p.2).2)
    · exact flatten_map_map_field_eq_nil _ _ _
        (fun p _ => currentStep_ocDeleteCalls_disabled env prov cluster ns rt
          data.desired data.use_admin_token p.1 p.2)

/-- C3 witness: the amended theorem at a concrete cell where — but for the
registered error — the delete would have fired (non-dry-run, resolvable
client, deletable orphan item). -/
theorem realize_no_provider_delete_when_disabled_witness :
    (_realize_resource_data ⟨false, false, none, false, false, none, true⟩
      ⟨fun _ => none, fun _ => true, fun _ => none⟩ "c" "ns" "Secret"
      ⟨[], [("x", ⟨"x", "bodyX", some ⟨"bodyX", none⟩, none, false, ""⟩)], []⟩
      ⟨true, [], []⟩).ocDeleteCalls = [] :=
  realize_no_provider_delete_when_disabled
    ⟨false, false, none, false, false, none, true⟩
    ⟨fun _ => none, fun _ => true, fun _ => none⟩ "c" "ns" "Secret"
    ⟨[], [("x", ⟨"x", "bodyX", some ⟨"bodyX", none⟩, none, false, ""⟩)], []⟩
    ⟨true, [], []⟩ (Or.inl rfl)

/-- C4 counterexample: the claim as stated is false — a current item that is
structurally equal to the desired item but carries no qontract annotations
is annotated-and-applied (one `applied` Action, one `apply` helper
invocation), even with no error registered, `caller` unset and no
take-over. -/
theorem realize_equal_unannotated_still_applied :
    ¬ ((∀ a ∈ (_realize_resource_data ⟨true, false, none, false, false, none, true⟩
          ⟨fun _ => none, fun _ => true, fun _ => none⟩ "c" "ns" "ConfigMap"
          ⟨[("a", ⟨"a", "bodyA", none, none, false, ""⟩)],
           [("a", ⟨"a", "bodyA", none, none, false, ""⟩)], []⟩
          ⟨false, [], []⟩).actions, a.name ≠ "a")
       ∧ "a" ∉ (_realize_resource_data ⟨true, false, none, false, false, none, true⟩
          ⟨fun _ => none, fun _ => true, fun _ => none⟩ "c" "ns" "ConfigMap"
          ⟨[("a", ⟨"a", "bodyA", none, none, false, ""⟩)],
           [("a", ⟨"a", "bodyA", none, none, false, ""⟩)], []⟩
          ⟨false, [], []⟩).applyCalls) := by
  decide

/-- C4 (amended): equal-resource skip.  For a cell with no registered error,
`caller` unset, no take-over, a comparing run (`dry_run` true or
`no_dry_run_skip_compare` false), and a desired name whose current item is
present, carries qontract annotations and is structurally equal to the
desired item, `_realize_resource_data` produces no Action for that name and
never invokes the `apply` helper for it. -/
theorem realize_equal_resource_skip
    (env : REnv) (prov : Provider) (cluster ns rt : String) (data : CellData) (ri : RI)
    (name : String) (d c : Resource)
    (hri : has_error_registered ri (some cluster) = false)
    (hcaller : env.caller = none)
    (hto : env.take_over = false)
    (hcompare : env.dry_run = true ∨ env.no_dry_run_skip_compare = false)
    (hmem : (name, d) ∈ data.desired)
    (hcur : alookup data.current name = some c)
    (heq : resourceEqual d c = true)
    (hann : c.has_qontract_annotations = true)
    (hnodD : (data.desired.map Prod.fst).Nodup)
    (hW : ∀ p ∈ data.desired, p.2.name = p.1) :
    (∀ a ∈ (_realize_resource_data env prov cluster ns rt data ri).actions, a.name ≠ name)
    ∧ name ∉ (_realize_resource_data env prov cluster ns rt data ri).applyCalls := by
  have hgate : (!env.dry_run && env.no_dry_run_skip_compare) = false := by
    rcases hcompare with h | h <;> simp [h]
  have hct : callerTruthy env = false := by simp [callerTruthy, hcaller]
  have hskip : applySkip env d c = true := by
    simp [applySkip, hgate, hct, hann, heq]
  have hskips : skipsApply env data.current name d = true := by
    simp [skipsApply, hcur, hskip]
  have hdes : (alookup data.desired name).isSome = true := alookup_isSome_of_mem hmem
  rw [realize_eq_of_no_cluster_error _ _ _ _ _ _ _ hri]
  simp only [List.map_append, List.flatten_append, List.mem_append]
  constructor
  · intro a ha
    rcases ha with ha | ha
    · obtain ⟨p, hp, hap⟩ := mem_flatten_map_map.mp ha
      have hshape := desiredStep_action_mem env prov cluster ns rt data.current
        data.use_admin_token p.1 p.2 hap
      intro hcontra
      have hpn : p.1 = name := by
        rw [← hW p hp, ← hshape.2, hcontra]
      have hp' : (name, p.2) ∈ data.desired := by rw [← hpn]; exact hp
      have hpd : p.2 = d := eq_of_mem_keys_nodup hnodD hp' hmem
      rw [desiredStep_of_skip env prov cluster ns rt data.current data.use_admin_token
        p.1 p.2 (by rw [hpn, hpd]; exact hskips)] at hap
      simp [emptyStep] at hap
    · obtain ⟨q, hq, haq⟩ := mem_flatten_map_map.mp ha
      have hshape := currentStep_action_mem env prov cluster ns rt data.desired
        data.use_admin_token (enableDeletion env ri) q.1 q.2 haq
      intro hcontra
      have hqn : q.1 = name := by rw [← hshape.2, hcontra]
      rw [currentStep_of_not_considered env prov cluster ns rt data.desired
        data.use_admin_token (enableDeletion env ri) q.1 q.2
        (deleteConsidered_of_desired_present env data.desired q.1 q.2
          (hqn ▸ hdes))] at haq
      simp [emptyStep] at haq
  · intro hmemcall
    rcases hmemcall with hc1 | hc1
    · obtain ⟨p, hp, hap⟩ := mem_flatten_map_map.mp hc1
      rw [desiredStep_applyCalls] at hap
      by_cases hsp : skipsApply env data.current p.1 p.2 = true
      · simp [hsp] at hap
      · simp only [hsp, Bool.false_eq_true, if_false, List.mem_singleton] at hap
        have hp' : (name, p.2) ∈ data.desired := by rw [hap]; exact hp
        have hpd : p.2 = d := eq_of_mem_keys_nodup hnodD hp' hmem
        apply hsp
        rw [← hap, hpd]
        exact hskips
    · obtain ⟨q, hq, haq⟩ := mem_flatten_map_map.mp hc1
      rw [(currentStep_calls_subset env prov cluster ns rt data.desired
        data.use_admin_token (enableDeletion env ri) q.1 q.2).2.2] at haq
      simp at haq

/-- C4 witness: the amended skip theorem at a concrete cell (annotated,
structurally equal current item; dry-run; no caller; no take-over). -/
theorem realize_equal_resource_skip_witness :
    (∀ a ∈ (_realize_resource_data ⟨true, false, none, false, false, none, true⟩
        ⟨fun _ => none, fun _ => true, fun _ => none⟩ "c" "ns" "ConfigMap"
        ⟨[("a", ⟨"a", "bodyA", none, none, false, ""⟩)],
         [("a", ⟨"a", "bodyA", some ⟨"bodyA", none⟩, none, false, ""⟩)], []⟩
        ⟨false, [], []⟩).actions, a.name ≠ "a")
    ∧ "a" ∉ (_realize_resource_data ⟨true, false, none, false, false, none, true⟩
        ⟨fun _ => none, fun _ => true, fun _ => none⟩ "c" "ns" "ConfigMap"
        ⟨[("a", ⟨"a", "bodyA", none, none, false, ""⟩)],
         [("a", ⟨"a", "bodyA", some ⟨"bodyA", none⟩, none, false, ""⟩)], []⟩
        ⟨false, [], []⟩).applyCalls :=
  realize_equal_resource_skip
    ⟨true, false, none, false, false, none, true⟩
    ⟨fun _ => none, fun _ => true, fun _ => none⟩ "c" "ns" "ConfigMap"
    ⟨[("a", ⟨"a", "bodyA", none, none, false, ""⟩)],
     [("a", ⟨"a", "bodyA", some ⟨"bodyA", none⟩, none, false, ""⟩)], []⟩
    ⟨false, [], []⟩ "a" ⟨"a", "bodyA", none, none, false, ""⟩
    ⟨"a", "bodyA", some ⟨"bodyA", none⟩, none, false, ""⟩
    (by decide) rfl rfl (Or.inl rfl) (by decide) (by decide) (by decide)
    (by decide) (by decide) (by decide)

/-- C5: deletion guard for unmanaged objects.  A current item without
qontract annotations is never deleted in a run without take-over: no
`deleted` Action carries its name, and neither the `delete` helper nor the
provider delete is invoked for it — regardless of the desired side. -/
theorem realize_unmanaged_never_deleted
    (env : REnv) (prov : Provider) (cluster ns rt : String) (data : CellData) (ri : RI)
    (name : String) (c : Resource)
    (hmem : (name, c) ∈ data.current)
    (hann : c.has_qontract_annotations = false)
    (hto : env.take_over = false)
    (hnodC : (data.current.map Prod.fst).Nodup) :
    (∀ a ∈ (_realize_resource_data env prov cluster ns rt data ri).actions,
        ¬(a.action = ACTION_DELETED ∧ a.name = name))
    ∧ name ∉ (_realize_resource_data env prov cluster ns rt data ri).ocDeleteCalls
    ∧ name ∉ (_realize_resource_data env prov cluster ns rt data ri).helperDeleteCalls := by
  have hcons : deleteConsidered env data.desired name c = false := by
    unfold deleteConsidered
    by_cases hd : (alookup data.desired name).isSome = true <;> simp [hd, hann, hto]
  by_cases hcl : has_error_registered ri (some cluster) = true
  · simp [_realize_resource_data, hcl]
  · have hcl' : has_error_registered ri (some cluster) = false := by simpa using hcl
    rw [realize_eq_of_no_cluster_error _ _ _ _ _ _ _ hcl']
    simp only [List.map_append, List.flatten_append, List.mem_append]
    refine ⟨?_, ?_, ?_⟩
    · intro a ha
      rcases ha with ha | ha
      · obtain ⟨p, hp, hap⟩ := mem_flatten_map_map.mp ha
        have hshape := desiredStep_action_mem env prov cluster ns rt data.current
          data.use_admin_token p.1 p.2 hap
        intro hcontra
        rw [hshape.1] at hcontra
        exact absurd hcontra.1 (by decide)
      · obtain ⟨q, hq, haq⟩ := mem_flatten_map_map.mp ha
        have hshape := currentStep_action_mem env prov cluster ns rt data.desired
          data.use_admin_token (enableDeletion env ri) q.1 q.2 haq
        intro hcontra
        have hqn : q.1 = name := by rw [← hshape.2, hcontra.2]
        have hqc : q.2 = c := eq_of_mem_keys_nodup hnodC (hqn ▸ hq) hmem
        rw [currentStep_of_not_considered env prov cluster ns rt data.desired
          data.use_admin_token (enableDeletion env ri) q.1 q.2
          (by rw [hqn, hqc]; exact hcons)] at haq
        simp [emptyStep] at haq
    · intro hmemcall
      rcases hmemcall with hc1 | hc1
      · obtain ⟨p, hp, hap⟩ := mem_flatten_map_map.mp hc1
        rw [(desiredStep_no_deleteCalls env prov cluster ns rt data.current
          data.use_admin_token p.1 p.2).2] at hap
        simp at hap
      · obtain ⟨q, hq, haq⟩ := mem_flatten_map_map.mp hc1
        have hqn : q.1 = name :=
          ((currentStep_calls_subset env prov cluster ns rt data.desired
            data.use_admin_token (enableDeletion env ri) q.1 q.2).2.1 name haq).symm
        have hqc : q.2 = c := eq_of_mem_keys_nodup hnodC (hqn ▸ hq) hmem
        rw [currentStep_of_not_considered env prov cluster ns rt data.desired
          data.use_admin_token (enableDeletion env ri) q.1 q.2
          (by rw [hqn, hqc]; exact hcons)] at haq
        simp [emptyStep] at haq
    · intro hmemcall
      rcases hmemcall with hc1 | hc1
      · obtain ⟨p, hp, hap⟩ := mem_flatten_map_map.mp hc1
        rw [(desiredStep_no_deleteCalls env prov cluster ns rt data.current
          data.use_admin_token p.1 p.2).1] at hap
        simp at hap
      · obtain ⟨q, hq, haq⟩ := mem_flatten_map_map.mp hc1
        have hqn : q.1 = name :=
          ((currentStep_calls_subset env prov cluster ns rt data.desired
            data.use_admin_token (enableDeletion env ri) q.1 q.2).1 name haq).symm
        have hqc : q.2 = c := eq_of_mem_keys_nodup hnodC (hqn ▸ hq) hmem
        rw [currentStep_of_not_considered env prov cluster ns rt data.desired
          data.use_admin_token (enableDeletion env ri) q.1 q.2
          (by rw [hqn, hqc]; exact hcons)] at haq
        simp [emptyStep] at haq

/-- C5 witness: the deletion guard at a concrete cell with an unmanaged
orphan current item, empty desired side, non-dry-run, deletion enabled. -/
theorem realize_unmanaged_never_deleted_witness :
    (∀ a ∈ (_realize_resource_data ⟨false, false, none, false, false, none, true⟩
        ⟨fun _ => none, fun _ => true, fun _ => none⟩ "c" "ns" "ConfigMap"
        ⟨[], [("u", ⟨"u", "bodyU", none, none, false, ""⟩)], []⟩
        ⟨false, [], []⟩).actions, ¬(a.action = ACTION_DELETED ∧ a.name = "u"))
    ∧ "u" ∉ (_realize_resource_data ⟨false, false, none, false, false, none, true⟩
        ⟨fun _ => none, fun _ => true, fun _ => none⟩ "c" "ns" "ConfigMap"
        ⟨[], [("u", ⟨"u", "bodyU", none, none, false, ""⟩)], []⟩
        ⟨false, [], []⟩).ocDeleteCalls
    ∧ "u" ∉ (_realize_resource_data ⟨false, false, none, false, false, none, true⟩
        ⟨fun _ => none, fun _ => true, fun _ => none⟩ "c" "ns" "ConfigMap"
        ⟨[], [("u", ⟨"u", "bodyU", none, none, false, ""⟩)], []⟩
        ⟨false, [], []⟩).helperDeleteCalls :=
  realize_unmanaged_never_deleted
    ⟨false, false, none, false, false, none, true⟩
    ⟨fun _ => none, fun _ => true, fun _ => none⟩ "c" "ns" "ConfigMap"
    ⟨[], [("u", ⟨"u", "bodyU", none, none, false, ""⟩)], []⟩
    ⟨false, [], []⟩ "u" ⟨"u", "bodyU", none, none, false, ""⟩
    (by decide) (by decide) rfl (by decide)

/-- C9 counterexample: the claim as stated is false — a failed *delete* of a
Secret logs the provider error text verbatim (`openshift_base.py` line 512
has no redaction), so the error output is not limited to a fixed generic
description and changes when only the provider error text changes. -/
theorem realize_secret_delete_failure_log_verbatim :
    (_realize_resource_data ⟨false, false, none, false, false, none, true⟩
      ⟨fun _ => none, fun _ => true, fun _ => some "SECRET-PAYLOAD-XYZ"⟩ "c" "ns" "Secret"
      ⟨[], [("x", ⟨"x", "bodyX", some ⟨"bodyX", none⟩, none, false, ""⟩)], []⟩
      ⟨false, [], []⟩).logs = ["[c/ns] SECRET-PAYLOAD-XYZ"]
    ∧ (_realize_resource_data ⟨false, false, none, false, false, none, true⟩
      ⟨fun _ => none, fun _ => true, fun _ => some "OTHER-TEXT"⟩ "c" "ns" "Secret"
      ⟨[], [("x", ⟨"x", "bodyX", some ⟨"bodyX", none⟩, none, false, ""⟩)], []⟩
      ⟨false, [], []⟩).logs = ["[c/ns] OTHER-TEXT"] := by
  constructor <;> decide

/-- C9 (amended): Secret redaction on the apply path.  For an apply failure
of kind `Secret`, the error log is built from the fixed redacted description
(name and `error_details` only): two runs differing only in the Secret's
body content and in the provider's apply error text produce identical error
log output. -/
theorem realize_secret_apply_failure_log_redacted
    (env : REnv) (cluster ns n : String) (d d' : Resource) (e e' : String)
    (uat : List (String × Bool)) (ri : RI)
    (ocr : Bool → Bool) (od : String → Option String)
    (hname : d.name = d'.name) (hed : d.errorDetails = d'.errorDetails) :
    (_realize_resource_data env ⟨fun _ => some e, ocr, od⟩ cluster ns "Secret"
      ⟨[(n, d)], [], uat⟩ ri).logs
    = (_realize_resource_data env ⟨fun _ => some e', ocr, od⟩ cluster ns "Secret"
      ⟨[(n, d')], [], uat⟩ ri).logs := by
  by_cases hcl : has_error_registered ri (some cluster) = true
  · simp [_realize_resource_data, hcl]
  · have hcl' : has_error_registered ri (some cluster) = false := by simpa using hcl
    rw [realize_eq_of_no_cluster_error _ _ _ _ _ _ _ hcl',
      realize_eq_of_no_cluster_error _ _ _ _ _ _ _ hcl']
    simp [desiredStep, skipsApply, alookup_nil, applyFailMsg, hname, hed]

/-- C9 witness: identical apply-failure logs for two Secrets with different
bodies and different provider error texts. -/
theorem realize_secret_apply_failure_log_redacted_witness :
    (_realize_resource_data ⟨false, false, none, false, false, none, true⟩
      ⟨fun _ => some "leak: body-one", fun _ => true, fun _ => none⟩ "c" "ns" "Secret"
      ⟨[("s1", ⟨"s1", "body-one", none, none, false, "details"⟩)], [], []⟩
      ⟨false, [], []⟩).logs
    = (_realize_resource_data ⟨false, false, none, false, false, none, true⟩
      ⟨fun _ => some "leak: body-two", fun _ => true, fun _ => none⟩ "c" "ns" "Secret"
      ⟨[("s1", ⟨"s1", "body-two", none, none, false, "details"⟩)], [], []⟩
      ⟨false, [], []⟩).logs :=
  realize_secret_apply_failure_log_redacted
    ⟨false, false, none, false, false, none, true⟩ "c" "ns" "s1"
    ⟨"s1", "body-one", none, none, false, "details"⟩
    ⟨"s1", "body-two", none, none, false, "details"⟩
    "leak: body-one" "leak: body-two" [] ⟨false, [], []⟩
    (fun _ => true) (fun _ => none) rfl rfl

/-- C6: immutable-field recovery allow-list.  When the first `oc.apply`
raises the field-is-immutable error (non-dry-run, resolvable client,
existing namespace), the `apply` helper performs exactly one provider delete
followed by exactly one provider apply for the same namespace and name if
and only if the kind is in `{Route, Service, Secret}`; for any other kind
the original error propagates and no delete is performed. -/
theorem apply_immutable_recovery_allowlist (ns rt name : String) :
    (rt ∈ ["Route", "Service", "Secret"] →
      apply_calls false ns rt name false false true true true false
          (some .fieldIsImmutable)
        = ([.ocApply ns name, .ocDelete ns rt name true, .ocApply ns name], none))
    ∧ (rt ∉ ["Route", "Service", "Secret"] →
      apply_calls false ns rt name false false true true true false
          (some .fieldIsImmutable)
        = ([.ocApply ns name], some .fieldIsImmutable)) := by
  constructor
  · intro h
    simp only [List.mem_cons, List.not_mem_nil, or_false] at h
    rcases h with rfl | rfl | rfl <;> simp [apply_calls]
  · intro h
    simp only [List.mem_cons, List.not_mem_nil, or_false, not_or] at h
    simp [apply_calls, h.1, h.2.1, h.2.2]

/-- C6 witness: the allow-list recovery at the concrete kinds `Service`
(recovered by delete-then-apply) and `ConfigMap` (error propagates, no
delete). -/
theorem apply_immutable_recovery_allowlist_witness :
    apply_calls false "ns" "Service" "svc1" false false true true true false
        (some .fieldIsImmutable)
      = ([.ocApply "ns" "svc1", .ocDelete "ns" "Service" "svc1" true,
          .ocApply "ns" "svc1"], none)
    ∧ apply_calls false "ns" "ConfigMap" "cm1" false false true true true false
        (some .fieldIsImmutable)
      = ([.ocApply "ns" "cm1"], some .fieldIsImmutable) :=
  ⟨(apply_immutable_recovery_allowlist "ns" "Service" "svc1").1 (by decide),
   (apply_immutable_recovery_allowlist "ns" "ConfigMap" "cm1").2 (by decide)⟩

/-- C7: fatal versus retryable validation signals.  (i) A supported-kind
applied resource whose live object has no (falsy) `status` always raises the
retryable `ValidationError('status')`.  (ii) A Job whose status reports no
success and whose conditions contain a `Failed` condition raises the fatal
`ValidationErrorJobFailed` carrying that condition's reason.  (iii) The
100-attempt retry wrapper does not catch the job-failed signal (it
propagates from the first attempt), while (iv) it does retry the not-ready
`ValidationError`. -/
theorem validate_job_failed_fatal_not_retryable :
    (∀ (kind name : String) (r : JVal), kind ∈ supported_kinds_validate →
        (r.get "status").truthy = false →
        validateResource kind name r = .error (.validationError "status"))
    ∧ (∀ (name : String) (r st conds c : JVal) (reason : String),
        r.get "status" = st → st.truthy = true →
        (st.get "succeeded").truthy = false →
        st.get "conditions" = conds → conds.truthy = true →
        findFailedCondition conds = some c →
        c.get "reason" = .str reason →
        validateResource "Job" name r = .error (.jobFailed (name ++ ": " ++ reason)))
    ∧ (∀ (f : Nat → Except PyExc Unit) (m : String),
        f 0 = .error (.jobFailed m) →
        retry_validation f 0 99 = .error (.jobFailed m))
    ∧ (∀ (f : Nat → Except PyExc Unit) (m : String),
        f 0 = .error (.validationError m) → f 1 = .ok () →
        retry_validation f 0 99 = .ok ()) := by
  refine ⟨?_, ?_, ?_, ?_⟩
  · intro kind name r hkind hst
    simp [validateResource, hst]
  · intro name r st conds c reason hst hsttr hsucc hconds hctr hfind hreason
    simp [validateResource, hst, hsttr, hsucc, hconds, hctr, hfind, hreason,
      deployment_like_kinds, JVal.pyStr]
  · intro f m h
    rw [show (99 : Nat) = 98 + 1 from rfl]
    unfold retry_validation
    rw [h]
  · intro f m h0 h1
    rw [show (99 : Nat) = 98 + 1 from rfl]
    unfold retry_validation
    rw [h0]
    show retry_validation f 1 98 = .ok ()
    rw [show (98 : Nat) = 97 + 1 from rfl]
    unfold retry_validation
    rw [h1]

/-- C7 witness: the four parts at concrete inputs — a Job with no status, a
Job with `succeeded` falsy and a `Failed/OOMKilled` condition, a constantly
job-failed attempt function, and an attempt function that becomes ready on
the second attempt. -/
theorem validate_job_failed_fatal_not_retryable_witness :
    validateResource "Job" "j0" (jobj [("spec", jobj [])])
      = .error (.validationError "status")
    ∧ validateResource "Job" "j1"
        (JVal.objCons "status"
          (jobj [("succeeded", .bool false),
                 ("conditions", jarr [jobj [("type", .str "Failed"),
                                            ("reason", .str "OOMKilled")]])])
          .objNil)
      = .error (.jobFailed "j1: OOMKilled")
    ∧ retry_validation (fun _ => .error (.jobFailed "j1: OOMKilled")) 0 99
      = .error (.jobFailed "j1: OOMKilled")
    ∧ retry_validation (fun i => if i = 0 then .error (.validationError "j1") else .ok ()) 0 99
      = .ok () :=
  ⟨validate_job_failed_fatal_not_retryable.1 "Job" "j0" (jobj [("spec", jobj [])])
      (by decide) (by decide),
   validate_job_failed_fatal_not_retryable.2.1 "j1" _
      (jobj [("succeeded", .bool false),
             ("conditions", jarr [jobj [("type", .str "Failed"),
                                        ("reason", .str "OOMKilled")]])])
      (jarr [jobj [("type", .str "Failed"), ("reason", .str "OOMKilled")]])
      (jobj [("type", .str "Failed"), ("reason", .str "OOMKilled")])
      "OOMKilled" rfl (by decide) (by decide) rfl (by decide) (by decide) (by decide),
   validate_job_failed_fatal_not_retryable.2.2.1 _ "j1: OOMKilled" rfl,
   validate_job_failed_fatal_not_retryable.2.2.2 _ "j1" rfl rfl⟩

theorem jval_beq_num_iff (a : JVal) (n : Int) :
    (JVal.beq a (.num n) = true) ↔ a = .num n := by
  cases a <;> simp [JVal.beq]

theorem jval_num_beq_iff (n : Int) (a : JVal) :
    (JVal.beq (.num n) a = true) ↔ a = .num n := by
  cases a <;> simp [JVal.beq]
  exact eq_comm

theorem jval_beq_num_false (a : JVal) (n : Int) (h : a ≠ .num n) :
    JVal.beq a (.num n) = false := by
  cases hbv : JVal.beq a (.num n)
  · rfl
  · exact absurd ((jval_beq_num_iff a n).mp hbv) h

theorem jval_num_beq_false (n : Int) (a : JVal) (h : a ≠ .num n) :
    JVal.beq (.num n) a = false := by
  cases hbv : JVal.beq (.num n) a
  · rfl
  · exact absurd ((jval_num_beq_iff n a).mp hbv) h

/-- C8 counterexample: the claim as stated is false — a Deployment with
`spec.replicas = 3` and a live status reporting `replicas: 0` (ready/updated
absent) completes validation without raising (the code treats
`status.replicas == 0` as trivially valid), although the desired count is
not 0 and the four replica fields are not all present and equal. -/
theorem validate_deployment_zero_status_replicas_passes :
    ¬ (validate_data_attempt (fun _ => true)
        (fun _ _ _ _ => jobj [("spec", jobj [("replicas", .num 3)]),
                              ("status", jobj [("replicas", .num 0)])])
        [⟨ACTION_APPLIED, "c", "ns", "Deployment", "d1", false⟩] = .ok ()
       ↔ ((3 : Int) = 0
           ∨ (JVal.num 0 = .num 3 ∧ JVal.null = .num 3 ∧ JVal.null = .num 3))) :=
  fun h => absurd (h.mp rfl) (by decide)

/-- C8 (amended): deployment-like readiness.  For an applied action of a
deployment-like kind whose live object has a truthy status and a numeric
`spec.replicas`, validation completes without raising iff `spec.replicas`
is 0, or `status.replicas` is 0, or `status.replicas`, `readyReplicas` and
`updatedReplicas` all equal `spec.replicas`; otherwise it raises the
retryable not-ready signal. -/
theorem validate_deployment_readiness_iff
    (kind name cluster ns : String) (r spec_field replicas ready updated : JVal) (dv : Int)
    (ocr : String → Bool) (fetch : String → String → String → String → JVal)
    (hkind : kind ∈ deployment_like_kinds)
    (hocr : ocr cluster = true)
    (hfetch : fetch cluster ns kind name = r)
    (hst : (r.get "status").truthy = true)
    (hspec : getItem r "spec" = .ok spec_field)
    (hdes : getItem spec_field "replicas" = .ok (.num dv))
    (hrep : (r.get "status").get "replicas" = replicas)
    (hready : (r.get "status").get "readyReplicas" = ready)
    (hupd : (r.get "status").get "updatedReplicas" = updated) :
    (validate_data_attempt ocr fetch [⟨ACTION_APPLIED, cluster, ns, kind, name, false⟩]
        = .ok ()
      ↔ (dv = 0 ∨ replicas = .num 0
          ∨ (replicas = .num dv ∧ ready = .num dv ∧ updated = .num dv)))
    ∧ (validate_data_attempt ocr fetch [⟨ACTION_APPLIED, cluster, ns, kind, name, false⟩]
          ≠ .ok ()
      → validate_data_attempt ocr fetch [⟨ACTION_APPLIED, cluster, ns, kind, name, false⟩]
          = .error (.validationError name)) := by
  have hsup : kind ∈ supported_kinds_validate := by
    have hk := hkind
    simp only [deployment_like_kinds, List.mem_cons, List.not_mem_nil, or_false] at hk
    rcases hk with rfl | rfl | rfl <;> decide
  have hval : validate_data_attempt ocr fetch
      [⟨ACTION_APPLIED, cluster, ns, kind, name, false⟩]
      = (if dv = 0 then .ok () else if replicas = .num 0 then .ok ()
         else if replicas = .num dv ∧ ready = .num dv ∧ updated = .num dv then .ok ()
         else .error (.validationError name)) := by
    have hone : validate_one_action ocr fetch
        ⟨ACTION_APPLIED, cluster, ns, kind, name, false⟩
        = validateResource kind name r := by
      simp [validate_one_action, ACTION_APPLIED, hsup, hocr, hfetch]
    have hres : validateResource kind name r
        = (if dv = 0 then .ok () else if replicas = .num 0 then .ok ()
           else if replicas = .num dv ∧ ready = .num dv ∧ updated = .num dv then .ok ()
           else .error (.validationError name)) := by
      by_cases h0 : dv = 0
      · subst h0
        simp [validateResource, hst, hkind, hspec, hdes, JVal.beq]
      · have hd0 : (JVal.beq (.num dv) (.num 0)) = false := by
          simp only [JVal.beq, beq_iff_eq]
          simpa using h0
        by_cases h1 : replicas = .num 0
        · subst h1
          simp [validateResource, hst, hkind, hspec, hdes, hrep, hd0, h0, JVal.beq]
        · have hr0 : (JVal.beq replicas (.num 0)) = false :=
            jval_beq_num_false replicas 0 h1
          by_cases h2 : replicas = .num dv
          · subst h2
            by_cases h3 : ready = .num dv
            · subst h3
              by_cases h4 : updated = .num dv
              · subst h4
                simp [validateResource, hst, hkind, hspec, hdes, hrep, hready, hupd,
                  hd0, hr0, h0, h1, JVal.beq]
              · have hu : (JVal.beq (.num dv) updated) = false :=
                  jval_num_beq_false dv updated h4
                simp [validateResource, hst, hkind, hspec, hdes, hrep, hready, hupd,
                  hd0, hr0, h0, h1, h4, hu, JVal.beq]
            · have hr : (JVal.beq (.num dv) ready) = false :=
                jval_num_beq_false dv ready h3
              simp [validateResource, hst, hkind, hspec, hdes, hrep, hready, hupd,
                hd0, hr0, h0, h1, h3, hr, JVal.beq]
          · have hr : (JVal.beq (.num dv) replicas) = false :=
              jval_num_beq_false dv replicas h2
            simp [validateResource, hst, hkind, hspec, hdes, hrep, hready, hupd,
              hd0, hr0, h0, h1, h2, hr]
    show (match validate_one_action ocr fetch
        ⟨ACTION_APPLIED, cluster, ns, kind, name, false⟩ with
      | .error e => (.error e : Except PyExc Unit)
      | .ok _ => validate_data_attempt ocr fetch []) = _
    rw [hone, hres]
    split_ifs <;> rfl
  rw [hval]
  constructor
  · split_ifs with h0 h1 h2
    · simp [h0]
    · simp [h1]
    · simp [h2]
    · simp [h0, h1, h2]
  · split_ifs with h0 h1 h2
    · simp
    · simp
    · simp
    · simp

/-- C8 witness: the readiness iff at two concrete live objects — one fully
ready (all four replica counts equal 3) and accepted. -/
theorem validate_deployment_readiness_iff_witness :
    (validate_data_attempt (fun _ => true)
        (fun _ _ _ _ => jobj [("spec", jobj [("replicas", .num 3)]),
                              ("status", jobj [("replicas", .num 3),
                                               ("readyReplicas", .num 3),
                                               ("updatedReplicas", .num 3)])])
        [⟨ACTION_APPLIED, "c", "ns", "Deployment", "d1", false⟩] = .ok ()
      ↔ ((3 : Int) = 0 ∨ JVal.num 3 = .num 0
          ∨ (JVal.num 3 = .num 3 ∧ JVal.num 3 = .num 3 ∧ JVal.num 3 = .num 3)))
    ∧ (validate_data_attempt (fun _ => true)
        (fun _ _ _ _ => jobj [("spec", jobj [("replicas", .num 3)]),
                              ("status", jobj [("replicas", .num 3),
                                               ("readyReplicas", .num 3),
                                               ("updatedReplicas", .num 3)])])
        [⟨ACTION_APPLIED, "c", "ns", "Deployment", "d1", false⟩] ≠ .ok ()
      → validate_data_attempt (fun _ => true)
        (fun _ _ _ _ => jobj [("spec", jobj [("replicas", .num 3)]),
                              ("status", jobj [("replicas", .num 3),
                                               ("readyReplicas", .num 3),
                                               ("updatedReplicas", .num 3)])])
        [⟨ACTION_APPLIED, "c", "ns", "Deployment", "d1", false⟩]
          = .error (.validationError "d1")) :=
  validate_deployment_readiness_iff "Deployment" "d1" "c" "ns"
    (jobj [("spec", jobj [("replicas", .num 3)]),
           ("status", jobj [("replicas", .num 3),
                            ("readyReplicas", .num 3),
                            ("updatedReplicas", .num 3)])])
    (jobj [("replicas", .num 3)]) (.num 3) (.num 3) (.num 3) 3
    (fun _ => true) _ (by decide) rfl rfl (by decide) rfl rfl
    (by decide) (by decide) (by decide)

theorem named_current_specs_mem (cluster ns : String) (ocPriv : Bool)
    (rto : List (String × String)) :
    ∀ (rns : List (String × List String)) (mt : List String),
      ∀ s ∈ (named_current_specs cluster ns ocPriv rto rns mt).1,
        s.type = "current" ∧ s.parent = none ∧ s.privileged = false := by
  intro rns
  induction rns with
  | nil => intro mt s hs; simp [named_current_specs] at hs
  | cons p rest ih =>
      intro mt s hs
      simp only [named_current_specs, List.mem_cons] at hs
      rcases hs with rfl | hs
      · exact ⟨rfl, rfl, rfl⟩
      · exact ih (mt.erase p.1) s hs

theorem process_namespace_specs_invariant (ocGet : String → Bool → Bool)
    (ocErr : String → Bool) (om : Option (List String)) (nsi : NamespaceInfo) (ri : RI)
    (specs : List StateSpec) (ri1 : RI)
    (h : process_namespace ocGet ocErr om nsi ri = .ok (specs, ri1)) :
    ∀ s ∈ specs,
      (s.type = "current" → s.privileged = false)
      ∧ (∀ nsip, s.parent = some nsip →
          s.type = "desired" ∧ s.privileged = (nsip.clusterAdmin == some true)) := by
  unfold process_namespace at h
  simp only [] at h
  repeat' split at h
  any_goals exact Except.noConfusion h
  all_goals
    (simp only [Except.ok.injEq, Prod.mk.injEq] at h
     intro s hs
     rw [← h.1] at hs)
  all_goals try exact absurd hs (List.not_mem_nil s)
  all_goals
    (simp only [List.mem_append] at hs
     rcases hs with (hs | hs) | hs
     · have hnc := named_current_specs_mem _ _ _ _ _ _ s hs
       refine ⟨fun _ => hnc.2.2, fun nsip hp => ?_⟩
       rw [hnc.2.1] at hp
       simp at hp
     · obtain ⟨t, _, rfl⟩ := List.mem_map.mp hs
       exact ⟨fun _ => rfl, fun nsip hp => by simp at hp⟩
     · obtain ⟨rsrc, _, rfl⟩ := List.mem_map.mp hs
       refine ⟨fun hc => by simp at hc, fun nsip hp => ?_⟩
       simp only [Option.some.injEq] at hp
       subst hp
       exact ⟨rfl, rfl⟩)

theorem process_namespaces_specs_invariant (ocGet : String → Bool → Bool)
    (ocErr : String → Bool) (om : Option (List String)) :
    ∀ (l : List NamespaceInfo) (ri : RI) (specs : List StateSpec) (ri1 : RI),
      process_namespaces ocGet ocErr om l ri = .ok (specs, ri1) →
      ∀ s ∈ specs,
        (s.type = "current" → s.privileged = false)
        ∧ (∀ nsip, s.parent = some nsip →
            s.type = "desired" ∧ s.privileged = (nsip.clusterAdmin == some true)) := by
  intro l
  induction l with
  | nil =>
      intro ri specs ri1 h s hs
      simp only [process_namespaces, Except.ok.injEq, Prod.mk.injEq] at h
      rw [← h.1] at hs
      simp at hs
  | cons nsi rest ih =>
      intro ri specs ri1 h s hs
      unfold process_namespaces at h
      split at h
      · simp at h
      · rename_i out1 heq1
        split at h
        · simp at h
        · rename_i out2 heq2
          simp only [Except.ok.injEq, Prod.mk.injEq] at h
          rw [← h.1] at hs
          rcases List.mem_append.mp hs with hs1 | hs1
          · exact process_namespace_specs_invariant ocGet ocErr om nsi ri out1.1 out1.2
              (by rw [heq1]) s hs1
          · exact ih out1.2 out2.1 out2.2 (by rw [heq2]) s hs1

theorem foldl_append_pairs_invariant {α β : Type} (P : β → Prop)
    (f g : α → β) (hf : ∀ t, P (f t)) (hg : ∀ t, P (g t)) :
    ∀ (l : List α) (init : List β), (∀ s ∈ init, P s) →
      ∀ s ∈ l.foldl (fun acc t => acc ++ [f t, g t]) init, P s := by
  intro l
  induction l with
  | nil => intro init hinit s hs; exact hinit s hs
  | cons t rest ih =>
      intro init hinit s hs
      refine ih (init ++ [f t, g t]) ?_ s hs
      intro s' hs'
      rcases List.mem_append.mp hs' with h | h
      · exact hinit s' h
      · simp only [List.mem_cons, List.not_mem_nil, or_false] at h
        rcases h with rfl | rfl
        · exact hf t
        · exact hg t

theorem process_clusters_specs_invariant (ocGet : String → Bool → Bool)
    (ocErr : String → Bool) (om : Option (List String)) :
    ∀ (l : List ClusterInfo) (ri : RI),
      ∀ s ∈ (process_clusters ocGet ocErr om l ri).1,
        s.privileged = false ∧ s.parent = none := by
  intro l
  induction l with
  | nil => intro ri s hs; simp [process_clusters] at hs
  | cons ci rest ih =>
      intro ri s hs
      simp only [process_clusters] at hs
      split at hs
      · exact ih _ s hs
      · rcases List.mem_append.mp hs with hs1 | hs1
        · exact foldl_append_pairs_invariant
            (fun s => s.privileged = false ∧ s.parent = none)
            (fun t => (⟨"current", (ci.name, false), ci.name, "cluster", t, none,
              none, none, false⟩ : StateSpec))
            (fun t => (⟨"desired", (ci.name, false), ci.name, "cluster", t, none,
              none, none, false⟩ : StateSpec))
            (fun _ => ⟨rfl, rfl⟩) (fun _ => ⟨rfl, rfl⟩) (om.getD []) [] (by simp) s hs1
        · exact ih _ s hs1

/-- C10: in `init_specs_to_fetch`, the privileged flag is attached only to
desired-state `StateSpec`s built from a namespace declaration: every
current-state spec is constructed with `privileged = False`, and every spec
carrying a namespace parent is a desired-state spec whose privileged flag
equals the namespace's `clusterAdmin: true` declaration.  So for a
`clusterAdmin: true` namespace the desired-state specs carry the flag while
the current-state specs for the same namespace never do. -/
theorem init_specs_current_never_privileged
    (ri : RI) (ocGet : String → Bool → Bool) (ocErr : String → Bool)
    (namespaces : Option (List NamespaceInfo)) (clusters : Option (List ClusterInfo))
    (om : Option (List String)) (specs : List StateSpec) (ri1 : RI)
    (h : init_specs_to_fetch ri ocGet ocErr namespaces clusters om = .ok (specs, ri1)) :
    (∀ s ∈ specs, s.type = "current" → s.privileged = false)
    ∧ (∀ s ∈ specs, ∀ nsip, s.parent = some nsip →
        s.type = "desired" ∧ s.privileged = (nsip.clusterAdmin == some true)) := by
  unfold init_specs_to_fetch at h
  split at h
  · simp at h
  · split at h
    · have := process_namespaces_specs_invariant ocGet ocErr om
        (namespaces.getD []) ri specs ri1 h
      exact ⟨fun s hs => (this s hs).1, fun s hs => (this s hs).2⟩
    · split at h
      · simp only [Except.ok.injEq] at h
        have hinv := process_clusters_specs_invariant ocGet ocErr om
          (clusters.getD []) ri
        rw [h] at hinv
        refine ⟨fun s hs _ => (hinv s hs).1, fun s hs nsip hp => ?_⟩
        rw [(hinv s hs).2] at hp
        simp at hp
      · simp at h

/-- C10 witness: a concrete `clusterAdmin: true` namespace — the generated
current spec has `privileged = false`, the desired spec `privileged =
true`. -/
theorem init_specs_current_never_privileged_witness :
    (∀ s ∈ [(⟨"current", ("cl", true), "cl", "ns1", "Secret", none, none, none, false⟩ :
              StateSpec),
            (⟨"desired", ("cl", true), "cl", "ns1", "r1",
              some ⟨"cl", "ns1", some true, some ["Secret"], none, none, some ["r1"]⟩,
              none, none, true⟩ : StateSpec)],
        s.type = "current" → s.privileged = false)
    ∧ (∀ s ∈ [(⟨"current", ("cl", true), "cl", "ns1", "Secret", none, none, none, false⟩ :
              StateSpec),
            (⟨"desired", ("cl", true), "cl", "ns1", "r1",
              some ⟨"cl", "ns1", some true, some ["Secret"], none, none, some ["r1"]⟩,
              none, none, true⟩ : StateSpec)],
        ∀ nsip, s.parent = some nsip →
          s.type = "desired" ∧ s.privileged = (nsip.clusterAdmin == some true)) :=
  init_specs_current_never_privileged ⟨false, [], []⟩ (fun _ _ => true) (fun _ => false)
    (some [⟨"cl", "ns1", some true, some ["Secret"], none, none, some ["r1"]⟩]) none none
    [(⟨"current", ("cl", true), "cl", "ns1", "Secret", none, none, none, false⟩ : StateSpec),
     (⟨"desired", ("cl", true), "cl", "ns1", "r1",
       some ⟨"cl", "ns1", some true, some ["Secret"], none, none, some ["r1"]⟩,
       none, none, true⟩ : StateSpec)]
    ⟨false, [], [("cl", "ns1", "Secret")]⟩ rfl

end OpenshiftBase
